import Mathlib

/-!
Shallow embedding of the PKI CRL management core (revocation service and
CRL assembly engine) of the repository, together with proofs of the
frozen claims about it.

Modelling conventions:
* Go maps are modelled as association lists; `aset` replaces the first
  binding of a key (appending a fresh binding at the end), `alookup`
  reads the first binding.  Go's randomized map-iteration order is fixed
  to insertion order.
* Byte strings (DER blobs, raw subjects/issuers, key ids, issuer ids,
  CRL ids) are modelled as `String`.
* Times are modelled as integers (Unix seconds); the zero time is `0`.
* JSON encode/decode of typed storage entries is modelled as the
  identity (decode always succeeds on a stored entry).
* X.509 parsing and signature verification are opaque to this code, so
  they are parameters of the model (`Env.parseCert`, `Env.checkSig`),
  as are duration parsing (`Env.parseDuration`), the current time
  (`Env.now`) and UUID generation (`Env.genId`, drawn at an
  incrementing per-state counter; freshness of UUIDs is an explicit
  hypothesis where a theorem needs it).
* Fallible Go code returning `error` is modelled with `Except String`;
  an error aborts the computation.
* `PkiState.signed` is a ghost log recording, in order, every
  `(crl id, crl number)` pair actually signed and written by `buildCRL`;
  it exists only so that theorems can speak about the sequence of CRL
  numbers written across builds.
-/

deriving instance DecidableEq for Except

namespace Vault

/-- Association list lookup: first binding of the key wins (Go map read). -/
def alookup {α β : Type} [DecidableEq α] : List (α × β) → α → Option β
  | [], _ => none
  | (k, v) :: rest, key => if k = key then some v else alookup rest key

/-- Association list update: replace the first binding of the key, or append
a new binding at the end (Go map write). -/
def aset {α β : Type} [DecidableEq α] : List (α × β) → α → β → List (α × β)
  | [], key, val => [(key, val)]
  | (k, v) :: rest, key, val =>
      if k = key then (k, val) :: rest else (k, v) :: aset rest key val

/-- Association list deletion of every binding of the key (Go map delete). -/
def aerase {α β : Type} [DecidableEq α] (l : List (α × β)) (key : α) :
    List (α × β) :=
  l.filter (fun kv => decide (kv.1 ≠ key))

/-- Append a value to the list stored under a key (Go `m[k] = append(m[k], v)`). -/
def aappend {α β : Type} [DecidableEq α] (l : List (α × List β)) (key : α)
    (v : β) : List (α × List β) :=
  aset l key (((alookup l key).getD []) ++ [v])

/-- Model of an X.509 certificate, restricted to the fields this code reads.
`serialStr` abstracts `serialFromCert` (the colon-separated lowercase hex
rendering of `serialNumber`). -/
structure Certificate where
  raw : String
  rawIssuer : String
  rawSubject : String
  serialNumber : Int
  serialStr : String
  notAfter : Int
  isCA : Bool
deriving DecidableEq, Repr

/-- serialFromCert: the canonical colon-hex serial of a certificate,
modelled abstractly by the `serialStr` field. -/
def serialFromCert (cert : Certificate) : String := cert.serialStr

/-- Hyphen-to-colon plus ASCII lowercasing of one character. -/
def normChar (c : Char) : Char :=
  if c = '-' then ':' else c.toLower

/-- Modelled from the spec: `normalizeSerial` is not under src/; per the
spec, the canonical serial form replaces embedded hyphens with colons and
lowercases, and lookups canonicalize before storage access.  (Character
by character; on serials this coincides with Go's strings.ToLower
followed by strings.ReplaceAll of hyphens by colons.) -/
def normalizeSerial (serial : String) : String :=
  String.mk (serial.data.map normChar)

/-- The issuer entry fields consumed by this code.  `crlSigningOK` models
`EnsureUsage(CRLSigningUsage) == nil`. -/
structure issuerEntry where
  keyID : String
  revoked : Bool
  revocationTimeUTC : Int
  crlSigningOK : Bool
  revocationSigAlg : Nat
deriving DecidableEq, Repr

/-- The issuer repository's data for one issuer id: its entry, its parsed
certificate (`none` models a parse/`GetCertificate` failure), and whether
`fetchCAInfoByIssuerId` (certificate + private key, with CRL-signing
usage) succeeds for it. -/
structure IssuerData where
  entry : issuerEntry
  cert : Option Certificate
  caInfoOK : Bool
deriving DecidableEq, Repr

/-- revocationInfo: a persisted revocation entry.  `revocationTimeUTC = 0`
models the zero time; `certificateIssuer = ""` models an empty issuer id. -/
structure revocationInfo where
  certificateBytes : String
  revocationTime : Int
  revocationTimeUTC : Int
  certificateIssuer : String
deriving DecidableEq, Repr

/-- pkix.RevokedCertificate, restricted to the fields set by this code. -/
structure RevokedCertificate where
  serialNumber : Int
  revocationTime : Int
deriving DecidableEq, Repr

/-- The content of a signed CRL as produced by `x509.CreateRevocationList`
from the template this code builds (signing is modelled as recording the
template data together with the signing issuer). -/
structure CRLBytes where
  revokedCertificates : List RevokedCertificate
  number : Int
  thisUpdate : Int
  nextUpdate : Int
  signatureAlgorithm : Nat
  signer : String
deriving DecidableEq, Repr

/-- crlConfig: the revocation configuration. -/
structure crlConfig where
  expiry : String
  disable : Bool
  autoRebuild : Bool
  autoRebuildGracePeriod : String
deriving DecidableEq, Repr

/-- Modelled from the spec: the compiled-in default revocation
configuration (`defaultCrlConfig` is not under src/). -/
def defaultCrlConfig : crlConfig :=
  { expiry := "72h", disable := false, autoRebuild := false
    autoRebuildGracePeriod := "12h" }

/-- Modelled from the spec: the cluster-local CRL configuration
(issuer→CRL-ID, CRL-ID→number, CRL-ID→expiry), read by
`getLocalCRLConfig` and written by `setLocalCRLConfig`, which are not
under src/. -/
structure localCRLConfigEntry where
  issuerIDCRLMap : List (String × String)
  crlNumberMap : List (String × Int)
  crlExpirationMap : List (String × Int)
deriving DecidableEq, Repr

/-- The key/value storage touched by this code, split by key family:
`revoked/<serial>` entries, `certs/<serial>` blobs, CRL blobs keyed by
their full write path, the cluster-local CRL configuration singleton, and
the revocation configuration. -/
structure Storage where
  revoked : List (String × revocationInfo)
  certs : List (String × String)
  crls : List (String × CRLBytes)
  localCRL : localCRLConfigEntry
  revConfig : Option crlConfig
deriving DecidableEq, Repr

/-- The crlBuilder's mutable fields (the mutexes of the sequential model
are not represented). -/
structure builderState where
  forceRebuild : Nat
  dirty : Bool
  config : crlConfig
deriving DecidableEq, Repr

/-- The full mutable state threaded through the model: storage, builder
state, the UUID draw counter, and the ghost log of signed CRL numbers. -/
structure PkiState where
  storage : Storage
  builder : builderState
  uuidCtr : Nat
  signed : List (String × Int)
deriving DecidableEq, Repr

/-- The opaque environment: current time, X.509 parsing, signature
verification (`checkSig c i` models `c.CheckSignatureFrom(i) == nil`),
duration parsing, and the UUID stream. -/
structure Env where
  now : Int
  parseCert : String → Option Certificate
  checkSig : Certificate → Certificate → Bool
  parseDuration : String → Option Int
  genId : Nat → String

/-- The read-only backend facts consumed by this code: taint state, the
legacy-bundle predicate, `listIssuers`, the issuer repository
(`fetchCertBundleByIssuerId` / `parseCABundle` / `GetCertificate` /
`fetchCAInfoByIssuerId` all draw from it), and the configured default
issuer id (`getIssuersConfig`; `""` models no default). -/
structure Backend where
  tainted : Bool
  legacyBundle : Bool
  issuersList : Except String (List String)
  issuerRepo : String → Option IssuerData
  defaultIssuerId : String

/-- A logical.Response, restricted to what this code sets. -/
structure LResponse where
  errMsg : Option String
  warnings : List String
  revocationTime : Option Int
  revocationTimeRFC3339 : Option Int
deriving DecidableEq, Repr

/-- logical.ErrorResponse. -/
def errorResponse (msg : String) : LResponse :=
  { errMsg := some msg, warnings := [], revocationTime := none
    revocationTimeRFC3339 := none }

/-- An empty response carrying one warning. -/
def warnResponse (msg : String) : LResponse :=
  { errMsg := none, warnings := [msg], revocationTime := none
    revocationTimeRFC3339 := none }

/-- The success response of revokeCert: `revocation_time`, plus
`revocation_time_rfc3339` when the UTC time is nonzero. -/
def successResponse (revInfo : revocationInfo) : LResponse :=
  { errMsg := none, warnings := []
    revocationTime := some revInfo.revocationTime
    revocationTimeRFC3339 :=
      if revInfo.revocationTimeUTC ≠ 0 then some revInfo.revocationTimeUTC
      else none }

def legacyBundleShimID : String := "legacy-entry-shim-id"

def legacyCRLPath : String := "crl"

def revokedPath : String := "revoked/"

/-- crlBuilder.getConfigWithUpdate: reload the config from storage if the
dirty flag is set (defaulting when absent), clear the dirty flag, and
return a snapshot of the config. -/
def getConfigWithUpdate (st : PkiState) : crlConfig × PkiState :=
  if st.builder.dirty then
    let cfg := st.storage.revConfig.getD defaultCrlConfig
    (cfg, { st with builder := { st.builder with config := cfg, dirty := false } })
  else
    (st.builder.config, st)

/-- associateRevokedCertWithIsssuer: walk the issuer certificate map; on the
first issuer whose raw subject equals the revoked certificate's raw issuer
and whose signature verifies, record it on the entry and report success. -/
def associateRevokedCertWithIsssuer (env : Env) (revInfo : revocationInfo)
    (revokedCert : Certificate)
    (issuerIDCertMap : List (String × Certificate)) : revocationInfo × Bool :=
  match issuerIDCertMap with
  | [] => (revInfo, false)
  | (issuerId, issuerCert) :: rest =>
      if revokedCert.rawIssuer = issuerCert.rawSubject then
        if env.checkSig revokedCert issuerCert then
          ({ revInfo with certificateIssuer := issuerId }, true)
        else
          associateRevokedCertWithIsssuer env revInfo revokedCert rest
      else
        associateRevokedCertWithIsssuer env revInfo revokedCert rest

/-- fetchCAInfoByIssuerId (with CRL-signing usage): yields the signing
certificate and the issuer's revocation signature algorithm. -/
def fetchCAInfoByIssuerId (b : Backend) (issuerId : String) :
    Except String (Certificate × Nat) :=
  match b.issuerRepo issuerId with
  | none => Except.error "could not fetch the CA certificate"
  | some d =>
      if d.caInfoOK then
        match d.cert with
        | none => Except.error "error fetching CA certificate"
        | some c => Except.ok (c, d.entry.revocationSigAlg)
      else
        Except.error "could not fetch the CA certificate"

/-- The issuer serial → certificates grouping built at the top of
getRevokedCertEntries. -/
def issuerSerialCertMapOf (issuerIDCertMap : List (String × Certificate)) :
    List (String × List Certificate) :=
  issuerIDCertMap.foldl (fun m kv => aappend m (serialFromCert kv.2) kv.2) []

/-- One iteration body of getRevokedCertEntries' loop, processing the listed
serials in order and threading (unassigned pool, per-issuer buckets, the
revoked/ store being updated in place). -/
def getRevokedCertEntriesAux (env : Env)
    (issuerIDCertMap : List (String × Certificate))
    (issuerSerialCertMap : List (String × List Certificate)) :
    List (String × revocationInfo) →
    List RevokedCertificate → List (String × List RevokedCertificate) →
    List (String × revocationInfo) →
    Except String (List RevokedCertificate ×
      List (String × List RevokedCertificate) × List (String × revocationInfo))
  | [], unassignedCerts, revokedCertsMap, store =>
      Except.ok (unassignedCerts, revokedCertsMap, store)
  | (serial, revInfo) :: rest, unassignedCerts, revokedCertsMap, store =>
      match env.parseCert revInfo.certificateBytes with
      | none => Except.error "unable to parse stored revoked certificate"
      | some revokedCert =>
          -- Skip entries whose certificate is byte-identical to an issuer
          -- certificate with the same serial.
          if ((alookup issuerSerialCertMap (serialFromCert revokedCert)).getD
              []).any (fun candidate => candidate.raw == revokedCert.raw) then
            getRevokedCertEntriesAux env issuerIDCertMap issuerSerialCertMap
              rest unassignedCerts revokedCertsMap store
          else
            let newRevCert : RevokedCertificate :=
              { serialNumber := revokedCert.serialNumber
                revocationTime :=
                  if revInfo.revocationTimeUTC ≠ 0 then revInfo.revocationTimeUTC
                  else revInfo.revocationTime }
            if revInfo.certificateIssuer ≠ "" ∧
                (alookup issuerIDCertMap revInfo.certificateIssuer).isSome then
              getRevokedCertEntriesAux env issuerIDCertMap issuerSerialCertMap
                rest unassignedCerts
                (aappend revokedCertsMap revInfo.certificateIssuer newRevCert)
                store
            else
              let assoc := associateRevokedCertWithIsssuer env revInfo
                revokedCert issuerIDCertMap
              if assoc.2 then
                getRevokedCertEntriesAux env issuerIDCertMap
                  issuerSerialCertMap rest unassignedCerts
                  (aappend revokedCertsMap (assoc.1).certificateIssuer
                    newRevCert)
                  (aset store serial assoc.1)
              else
                getRevokedCertEntriesAux env issuerIDCertMap
                  issuerSerialCertMap rest
                  (unassignedCerts ++ [newRevCert]) revokedCertsMap store

/-- getRevokedCertEntries: enumerate revoked/ entries, parse each stored
certificate, skip issuer self-entries, build pkix.RevokedCertificate
values, route each to its issuer's bucket (updating entries whose issuer
association is discovered here) or to the unassigned pool. -/
def getRevokedCertEntries (env : Env)
    (issuerIDCertMap : List (String × Certificate))
    (revokedStore : List (String × revocationInfo)) :
    Except String (List RevokedCertificate ×
      List (String × List RevokedCertificate) × List (String × revocationInfo)) :=
  getRevokedCertEntriesAux env issuerIDCertMap
    (issuerSerialCertMapOf issuerIDCertMap) revokedStore [] [] revokedStore

/-- Inner loop of augmentWithRevokedIssuers: append the synthesized revoked
certificate of `ourIssuerID` to the bucket of every other issuer whose
certificate validates its signature. -/
def augmentInner (env : Env) (issuerIDCertMap : List (String × Certificate))
    (ourIssuerID : String) (ourCert : Certificate)
    (ourRevCert : RevokedCertificate) :
    List (String × issuerEntry) → List (String × List RevokedCertificate) →
    List (String × List RevokedCertificate)
  | [], revokedCertsMap => revokedCertsMap
  | (otherIssuerID, _) :: rest, revokedCertsMap =>
      if otherIssuerID = ourIssuerID then
        augmentInner env issuerIDCertMap ourIssuerID ourCert ourRevCert rest
          revokedCertsMap
      else
        match alookup issuerIDCertMap otherIssuerID with
        | none =>
            augmentInner env issuerIDCertMap ourIssuerID ourCert ourRevCert
              rest revokedCertsMap
        | some otherCert =>
            if env.checkSig ourCert otherCert then
              augmentInner env issuerIDCertMap ourIssuerID ourCert ourRevCert
                rest (aappend revokedCertsMap otherIssuerID ourRevCert)
            else
              augmentInner env issuerIDCertMap ourIssuerID ourCert ourRevCert
                rest revokedCertsMap

/-- augmentWithRevokedIssuers: for every issuer entry marked revoked,
synthesize a revoked-certificate record and add it to the bucket of every
other issuer that verifies its signature.  (In buildCRLs every key of the
entry map also has a certificate; an impossible missing certificate is
skipped.) -/
def augmentWithRevokedIssuers (env : Env)
    (issuerIDEntryMap : List (String × issuerEntry))
    (issuerIDCertMap : List (String × Certificate))
    (revokedCertsMap : List (String × List RevokedCertificate)) :
    List (String × List RevokedCertificate) :=
  issuerIDEntryMap.foldl
    (fun m kv =>
      if kv.2.revoked then
        match alookup issuerIDCertMap kv.1 with
        | none => m
        | some ourCert =>
            augmentInner env issuerIDCertMap kv.1 ourCert
              { serialNumber := ourCert.serialNumber
                revocationTime := kv.2.revocationTimeUTC }
              issuerIDEntryMap m
      else m)
    revokedCertsMap

/-- buildCRL: build and sign one CRL for the representative issuer.  With a
disabled config and no force it returns the zero-time sentinel without
writing; with a disabled config under force it signs an empty CRL.  On a
sign-and-write, the CRL blob is stored at its write path (the legacy path
for the legacy shim issuer) and the ghost log records the number used. -/
def buildCRL (env : Env) (b : Backend) (crlInfo : crlConfig) (forceNew : Bool)
    (thisIssuerId : String) (revoked : List RevokedCertificate)
    (identifier : String) (crlNumber : Int) (st : PkiState) :
    Except String (Int × PkiState) :=
  match env.parseDuration crlInfo.expiry with
  | none => Except.error "error parsing CRL duration"
  | some crlLifetime =>
      if crlInfo.disable ∧ ¬forceNew then
        Except.ok (0, st)
      else
        -- With disable ∧ forceNew the template's revoked list stays empty.
        let revokedCerts := if crlInfo.disable then [] else revoked
        match fetchCAInfoByIssuerId b thisIssuerId with
        | Except.error e => Except.error e
        | Except.ok (_, sigAlg) =>
            let nextUpdate := env.now + crlLifetime
            let crl : CRLBytes :=
              { revokedCertificates := revokedCerts, number := crlNumber
                thisUpdate := env.now, nextUpdate := nextUpdate
                signatureAlgorithm := sigAlg, signer := thisIssuerId }
            let writePath :=
              if thisIssuerId = legacyBundleShimID then legacyCRLPath
              else "crls/" ++ identifier
            Except.ok (nextUpdate,
              { st with
                storage := { st.storage with
                  crls := aset st.storage.crls writePath crl }
                signed := st.signed ++ [(identifier, crlNumber)] })

/-- The issuer-collection loop of buildCRLs: for each listed issuer fetch
its bundle (failure aborts the build), skip issuers with an empty key id
or without CRL-signing usage, record its entry and certificate, and add it
to its (key id, raw subject) equivalence cell. -/
def collectIssuersAux (b : Backend) :
    List String → List (String × issuerEntry) → List (String × Certificate) →
    List ((String × String) × List String) →
    Except String (List (String × issuerEntry) × List (String × Certificate) ×
      List ((String × String) × List String))
  | [], entryMap, certMap, keySubjectIssuersMap =>
      Except.ok (entryMap, certMap, keySubjectIssuersMap)
  | issuer :: rest, entryMap, certMap, keySubjectIssuersMap =>
      match b.issuerRepo issuer with
      | none => Except.error "unable to fetch specified issuer"
      | some d =>
          if d.entry.keyID = "" then
            collectIssuersAux b rest entryMap certMap keySubjectIssuersMap
          else if ¬d.entry.crlSigningOK then
            collectIssuersAux b rest entryMap certMap keySubjectIssuersMap
          else
            match d.cert with
            | none => Except.error "unable to parse issuer certificate"
            | some thisCert =>
                collectIssuersAux b rest (aset entryMap issuer d.entry)
                  (aset certMap issuer thisCert)
                  (aappend keySubjectIssuersMap
                    (d.entry.keyID, thisCert.rawSubject) issuer)

/-- The scan over one equivalence class's issuer set in buildCRLs:
accumulate the class's revoked certificates (the default issuer absorbs
the unassigned pool and becomes the representative), and resolve the
class's CRL id from the cluster-local index, failing on divergent ids.
The accumulator is (revoked certs, representative, crl id, crl id's
issuer). -/
def classScan (defaultIssuerId : String)
    (unassignedCerts : List RevokedCertificate)
    (revokedCertsMap : List (String × List RevokedCertificate))
    (issuerIDCRLMap : List (String × String)) :
    List String → List RevokedCertificate × String × String × String →
    Except String (List RevokedCertificate × String × String × String)
  | [], acc => Except.ok acc
  | issuerId :: rest, (revokedCerts, representative, crlIdentifier, crlIdIssuer) =>
      let (revokedCerts, representative) :=
        if issuerId = defaultIssuerId then
          (if unassignedCerts ≠ [] then revokedCerts ++ unassignedCerts
           else revokedCerts, issuerId)
        else (revokedCerts, representative)
      let revokedCerts :=
        match alookup revokedCertsMap issuerId with
        | some thisRevoked =>
            if thisRevoked ≠ [] then revokedCerts ++ thisRevoked
            else revokedCerts
        | none => revokedCerts
      match alookup issuerIDCRLMap issuerId with
      | some thisCRLId =>
          if thisCRLId ≠ "" then
            if crlIdentifier ≠ "" ∧ crlIdentifier ≠ thisCRLId then
              Except.error "two issuers with same keys/subjects have different internal CRL IDs"
            else
              classScan defaultIssuerId unassignedCerts revokedCertsMap
                issuerIDCRLMap rest
                (revokedCerts, representative, thisCRLId, issuerId)
          else
            classScan defaultIssuerId unassignedCerts revokedCertsMap
              issuerIDCRLMap rest
              (revokedCerts, representative, crlIdentifier, crlIdIssuer)
      | none =>
          classScan defaultIssuerId unassignedCerts revokedCertsMap
            issuerIDCRLMap rest
            (revokedCerts, representative, crlIdentifier, crlIdIssuer)

/-- Per-class body of buildCRLs' main loop: scan the class, mint a fresh
CRL id (seeding its number at 1) when none was resolved, point every
member issuer at the CRL id, allocate the CRL number (read current,
post-increment the map, sign with the pre-increment value), build the CRL,
and record its expiry. -/
def processClass (env : Env) (b : Backend) (globalCRLConfig : crlConfig)
    (forceNew : Bool) (defaultIssuerId : String)
    (unassignedCerts : List RevokedCertificate)
    (revokedCertsMap : List (String × List RevokedCertificate))
    (cc : localCRLConfigEntry) (st : PkiState) (issuersSet : List String) :
    Except String (localCRLConfigEntry × PkiState) :=
  if issuersSet = [] then Except.ok (cc, st)
  else
      match classScan defaultIssuerId unassignedCerts revokedCertsMap
          cc.issuerIDCRLMap issuersSet ([], issuersSet.headI, "", "") with
      | Except.error e => Except.error e
      | Except.ok (revokedCerts, representative, crlIdentifier0, _) =>
          let minted := crlIdentifier0 = ""
          let crlIdentifier :=
            if minted then env.genId st.uuidCtr else crlIdentifier0
          let cc :=
            if minted then
              { cc with crlNumberMap := aset cc.crlNumberMap crlIdentifier 1 }
            else cc
          let st := if minted then { st with uuidCtr := st.uuidCtr + 1 } else st
          let cc :=
            { cc with issuerIDCRLMap :=
                (issuersSet.foldl (fun m i => aset m i crlIdentifier)
                  cc.issuerIDCRLMap) }
          let crlNumber := (alookup cc.crlNumberMap crlIdentifier).getD 0
          let cc :=
            { cc with crlNumberMap :=
                (aset cc.crlNumberMap crlIdentifier (crlNumber + 1)) }
          match buildCRL env b globalCRLConfig forceNew representative
              revokedCerts crlIdentifier crlNumber st with
          | Except.error e => Except.error e
          | Except.ok (nextUpdate, st) =>
              Except.ok
                ({ cc with crlExpirationMap :=
                    (aset cc.crlExpirationMap crlIdentifier nextUpdate) }, st)

/-- buildCRLs' main loop over the equivalence cells, in cell order. -/
def processClasses (env : Env) (b : Backend) (globalCRLConfig : crlConfig)
    (forceNew : Bool) (defaultIssuerId : String)
    (unassignedCerts : List RevokedCertificate)
    (revokedCertsMap : List (String × List RevokedCertificate)) :
    List ((String × String) × List String) → localCRLConfigEntry → PkiState →
    Except String (localCRLConfigEntry × PkiState)
  | [], cc, st => Except.ok (cc, st)
  | cell :: rest, cc, st =>
      match processClass env b globalCRLConfig forceNew defaultIssuerId
          unassignedCerts revokedCertsMap cc st cell.2 with
      | Except.error e => Except.error e
      | Except.ok (cc, st) =>
          processClasses env b globalCRLConfig forceNew defaultIssuerId
            unassignedCerts revokedCertsMap rest cc st

/-- Garbage collection of the issuer→CRL-id index: drop issuers that are
no longer listed. -/
def gcIssuerMap (issuers : List String) (m : List (String × String)) :
    List (String × String) :=
  m.filter (fun kv => decide (kv.1 ∈ issuers))

/-- Garbage collection of CRL blobs: for every CRL id in the number map no
longer referenced by any remaining issuer, delete its blob. -/
def gcCRLBlobs (cc : localCRLConfigEntry) (crls : List (String × CRLBytes)) :
    List (String × CRLBytes) :=
  cc.crlNumberMap.foldl
    (fun acc kv =>
      if cc.issuerIDCRLMap.any (fun iv => iv.2 == kv.1) then acc
      else aerase acc ("crls/" ++ kv.1))
    crls

/-- buildCRLs: fetch a fresh config (short-circuiting when disabled and not
forced), list the issuers (or the legacy shim), partition them into
(key id, raw subject) equivalence cells, load and route the revoked
certificates, augment with revoked issuers, build one CRL per cell,
garbage-collect the index and stale blobs, and persist the updated
cluster-local config unless running on the legacy bundle. -/
def buildCRLs (env : Env) (b : Backend) (forceNew : Bool) (stIn : PkiState) :
    Except String PkiState :=
    let globalCRLConfig := (getConfigWithUpdate stIn).1
    let st := (getConfigWithUpdate stIn).2
    if globalCRLConfig.disable ∧ ¬forceNew then
      Except.ok st
    else
      match (if ¬b.legacyBundle then b.issuersList
             else Except.ok [legacyBundleShimID]) with
      | Except.error e =>
          Except.error ("error building CRL: while listing issuers: " ++ e)
      | Except.ok issuers =>
          let wasLegacy := b.legacyBundle
          let defaultIssuerId := b.defaultIssuerId
          match collectIssuersAux b issuers [] [] [] with
          | Except.error e => Except.error e
          | Except.ok (issuerIDEntryMap, issuerIDCertMap, keySubjectIssuersMap) =>
              let crlConfig := st.storage.localCRL
              match getRevokedCertEntries env issuerIDCertMap
                  st.storage.revoked with
              | Except.error e => Except.error e
              | Except.ok (unassignedCerts, revokedCertsMap, revokedStore) =>
                  let st := { st with storage :=
                    { st.storage with revoked := revokedStore } }
                  let revokedCertsMap :=
                    augmentWithRevokedIssuers env issuerIDEntryMap
                      issuerIDCertMap revokedCertsMap
                  match processClasses env b globalCRLConfig forceNew
                      defaultIssuerId unassignedCerts revokedCertsMap
                      keySubjectIssuersMap crlConfig st with
                  | Except.error e => Except.error e
                  | Except.ok (crlConfig, st) =>
                      let crlConfig := { crlConfig with issuerIDCRLMap :=
                        (gcIssuerMap issuers crlConfig.issuerIDCRLMap) }
                      let st := { st with storage := { st.storage with
                        crls := (gcCRLBlobs crlConfig st.storage.crls) } }
                      if ¬wasLegacy then
                        Except.ok { st with storage :=
                          { st.storage with localCRL := crlConfig } }
                      else
                        Except.ok st

/-- A sequence of buildCRLs runs with the given forceNew flags; a failing
run aborts the sequence. -/
def runBuilds (env : Env) (b : Backend) :
    List Bool → PkiState → Except String PkiState
  | [], st => Except.ok st
  | forceNew :: rest, st =>
      match buildCRLs env b forceNew st with
      | Except.error e => Except.error e
      | Except.ok st => runBuilds env b rest st

/-- The issuer-validation loop at the top of revokeCert: fetch and parse
every issuer's CA certificate, reject (with a user-error response) a
serial that equals an issuer's own serial, and otherwise accumulate the
issuer id → certificate map. -/
def revIssuerScanAux (b : Backend) (colonSerial : String) :
    List String → List (String × Certificate) →
    Except String (Option LResponse × List (String × Certificate))
  | [], acc => Except.ok (none, acc)
  | issuer :: rest, acc =>
      match b.issuerRepo issuer with
      | none => Except.error "error fetching CA certificate for issuer"
      | some d =>
          match d.cert with
          | none => Except.error "stored CA information not able to be parsed"
          | some cert =>
              if colonSerial = serialFromCert cert then
                Except.ok (some (errorResponse
                  ("adding issuer (id: " ++ issuer ++
                    ") to its own CRL is not allowed")), acc)
              else
                revIssuerScanAux b colonSerial rest (aset acc issuer cert)

/-- Steps 7-8 of revokeCert: fetch a fresh config; unless auto-rebuild is
on, rebuild the CRLs synchronously (forceNew = false); then answer with
the revocation time of the (possibly pre-existing) entry. -/
def finishRevoke (env : Env) (b : Backend) (revInfo : revocationInfo)
    (stIn : PkiState) : Except String (Option LResponse × PkiState) :=
    let config := (getConfigWithUpdate stIn).1
    let st := (getConfigWithUpdate stIn).2
    if ¬config.autoRebuild then
      match buildCRLs env b false st with
      | Except.error e =>
          Except.error ("error encountered during CRL building: " ++ e)
      | Except.ok st => Except.ok (some (successResponse revInfo), st)
    else
      Except.ok (some (successResponse revInfo), st)

/-- revokeCert: no-op on a tainted mount; validate the serial against every
issuer's own serial; reuse an existing revocation entry if present (the
already-revoked path skips certificate loading and the expiry check);
otherwise load the certificate (lease-tolerant when absent), refuse
already-expired certificates with a warning, skip CA-from-lease, build and
persist the revocation entry (associating an issuer when one matches), and
finish by optionally rebuilding and answering with the revocation time.
Lookups under certs/ and revoked/ canonicalize the serial
(fetchCertBySerial, modelled from the spec). -/
def revokeCert (env : Env) (b : Backend) (serial : String) (fromLease : Bool)
    (st : PkiState) : Except String (Option LResponse × PkiState) :=
  if b.tainted then Except.ok (none, st)
  else
    match (if ¬b.legacyBundle then b.issuersList
           else Except.ok [legacyBundleShimID]) with
    | Except.error e =>
        Except.ok (some (errorResponse ("could not fetch issuers list: " ++ e)),
          st)
    | Except.ok issuers =>
        let colonSerial := normalizeSerial serial
        match revIssuerScanAux b colonSerial issuers [] with
        | Except.error e => Except.error e
        | Except.ok (some resp, _) => Except.ok (some resp, st)
        | Except.ok (none, issuerIDCertMap) =>
            match alookup st.storage.revoked (normalizeSerial serial) with
            | some revInfo =>
                -- alreadyRevoked: reuse the stored revocation info.
                finishRevoke env b revInfo st
            | none =>
                match alookup st.storage.certs (normalizeSerial serial) with
                | none =>
                    if fromLease then Except.ok (none, st)
                    else
                      Except.ok (some (errorResponse
                        ("certificate with serial " ++ serial ++ " not found")),
                        st)
                | some certBytes =>
                    match env.parseCert certBytes with
                    | none => Except.error "error parsing certificate"
                    | some cert =>
                        if cert.notAfter < env.now + 2 then
                          Except.ok (some (warnResponse
                            ("certificate with serial " ++ serial ++
                              " already expired; refusing to add to CRL")), st)
                        else if cert.isCA ∧ fromLease then
                          Except.ok (none, st)
                        else
                          let revInfo0 : revocationInfo :=
                            { certificateBytes := certBytes
                              revocationTime := env.now
                              revocationTimeUTC := env.now
                              certificateIssuer := "" }
                          let revInfo :=
                            (associateRevokedCertWithIsssuer env revInfo0 cert
                              issuerIDCertMap).1
                          let st := { st with storage := { st.storage with
                            revoked := (aset st.storage.revoked
                              (normalizeSerial serial) revInfo) } }
                          finishRevoke env b revInfo st

def _ignoreForceFlag : Bool := true

def _enforceForceFlag : Bool := false

/-- _doRebuild: under the build mutex, re-read the force flag; when it is
set (or when told to ignore it), first CAS the flag back to 0 and only
then build, promoting forceNew when the flag had been set. -/
def _doRebuild (env : Env) (b : Backend) (forceNew ignoreForceFlag : Bool)
    (st : PkiState) : Except String PkiState :=
  let forceBuildFlag := st.builder.forceRebuild
  if forceBuildFlag = 1 ∨ ignoreForceFlag then
    let st :=
      if st.builder.forceRebuild = 1 then
        { st with builder := { st.builder with forceRebuild := 0 } }
      else st
    let myForceNew : Bool := decide (forceBuildFlag = 1) || forceNew
    buildCRLs env b myForceNew st
  else
    Except.ok st

/-- rebuildIfForced: rebuild only when the force flag is set. -/
def rebuildIfForced (env : Env) (b : Backend) (st : PkiState) :
    Except String PkiState :=
  if st.builder.forceRebuild = 1 then
    _doRebuild env b true _enforceForceFlag st
  else
    Except.ok st

/-- rebuild: rebuild unconditionally (write paths). -/
def rebuild (env : Env) (b : Backend) (forceNew : Bool) (st : PkiState) :
    Except String PkiState :=
  _doRebuild env b forceNew _ignoreForceFlag st

theorem alookup_aset_self {α β : Type} [DecidableEq α] (l : List (α × β))
    (k : α) (v : β) : alookup (aset l k v) k = some v := by
  induction l with
  | nil => simp [aset, alookup]
  | cons p rest ih =>
      by_cases h : p.1 = k
      · simp [aset, alookup, h]
      · simp [aset, alookup, h, ih]

theorem alookup_aset_ne {α β : Type} [DecidableEq α] (l : List (α × β))
    (k k' : α) (v : β) (h : k' ≠ k) :
    alookup (aset l k v) k' = alookup l k' := by
  induction l with
  | nil => simp [aset, alookup, Ne.symm h]
  | cons p rest ih =>
      by_cases hp : p.1 = k
      · have hk' : ¬p.1 = k' := by
          rw [hp]
          exact Ne.symm h
        simp only [aset, if_pos hp, alookup, if_neg hk']
      · simp only [aset, if_neg hp, alookup]
        by_cases hp' : p.1 = k'
        · simp [hp']
        · simp [hp', ih]

theorem mem_aset {α β : Type} [DecidableEq α] (l : List (α × β)) (k : α)
    (v : β) (p : α × β) (h : p ∈ aset l k v) : p ∈ l ∨ p = (k, v) := by
  induction l with
  | nil => simpa [aset] using h
  | cons q rest ih =>
      by_cases hq : q.1 = k
      · simp only [aset, if_pos hq] at h
        rcases List.mem_cons.mp h with h | h
        · right
          rw [h, ← hq]
        · left
          exact List.mem_cons_of_mem _ h
      · simp only [aset, if_neg hq] at h
        rcases List.mem_cons.mp h with h | h
        · left
          exact h ▸ List.mem_cons_self _ _
        · rcases ih h with h | h
          · left
            exact List.mem_cons_of_mem _ h
          · right
            exact h

/-- getConfigWithUpdate only touches the builder's config and dirty flag. -/
theorem getConfigWithUpdate_frame (st : PkiState) :
    ((getConfigWithUpdate st).2).storage = st.storage ∧
    ((getConfigWithUpdate st).2).uuidCtr = st.uuidCtr ∧
    ((getConfigWithUpdate st).2).signed = st.signed ∧
    ((getConfigWithUpdate st).2).builder.forceRebuild =
      st.builder.forceRebuild := by
  unfold getConfigWithUpdate
  split <;> exact ⟨rfl, rfl, rfl, rfl⟩

/-- Claim C5: with the loaded configuration disabled and forceNew = false,
buildCRLs returns success immediately and performs no storage writes: the
CRL blobs, the cluster-local index and the revocation entries are all
unchanged. -/
theorem buildCRLs_disabled_not_forced_noop (env : Env) (b : Backend)
    (st : PkiState) (hdis : (getConfigWithUpdate st).1.disable = true) :
    buildCRLs env b false st = Except.ok (getConfigWithUpdate st).2 ∧
    ((getConfigWithUpdate st).2).storage = st.storage := by
  refine ⟨?_, (getConfigWithUpdate_frame st).1⟩
  unfold buildCRLs
  rcases hg : getConfigWithUpdate st with ⟨g, st1⟩
  rw [hg] at hdis
  simp only at hdis
  simp [hdis]

/-- Witness for C5 at a concrete state. -/
def envW : Env :=
  { now := 100
    parseCert := fun _ => none
    checkSig := fun _ _ => false
    parseDuration := fun s => if s = "72h" then some 259200 else none
    genId := fun n => "uuid-" ++ toString n }

def bW : Backend :=
  { tainted := false
    legacyBundle := false
    issuersList := Except.ok []
    issuerRepo := fun _ => none
    defaultIssuerId := "" }

def stDisabledW : PkiState :=
  { storage := { revoked := [], certs := [], crls := []
                 localCRL := { issuerIDCRLMap := [], crlNumberMap := []
                               crlExpirationMap := [] }
                 revConfig := none }
    builder := { forceRebuild := 0, dirty := false
                 config := { defaultCrlConfig with disable := true } }
    uuidCtr := 0
    signed := [] }

theorem buildCRLs_disabled_not_forced_noop_witness :
    buildCRLs envW bW false stDisabledW =
      Except.ok (getConfigWithUpdate stDisabledW).2 ∧
    ((getConfigWithUpdate stDisabledW).2).storage = stDisabledW.storage :=
  buildCRLs_disabled_not_forced_noop envW bW stDisabledW (by decide)

/-- Claim C6: with Disable = true and forceNew = true, the CRL template
passed to signing has an empty revoked-certificate list regardless of the
revoked entries collected, and the signed empty CRL is persisted at the
CRL's write path. -/
theorem buildCRL_disabled_forced_signs_empty (env : Env) (b : Backend)
    (crlInfo : crlConfig) (thisIssuerId : String)
    (revoked : List RevokedCertificate) (identifier : String)
    (crlNumber : Int) (st : PkiState) (d : Int) (cacert : Certificate)
    (sigAlg : Nat)
    (hdis : crlInfo.disable = true)
    (hdur : env.parseDuration crlInfo.expiry = some d)
    (hca : fetchCAInfoByIssuerId b thisIssuerId = Except.ok (cacert, sigAlg)) :
    ∃ st',
      buildCRL env b crlInfo true thisIssuerId revoked identifier crlNumber
        st = Except.ok (env.now + d, st') ∧
      alookup st'.storage.crls
        (if thisIssuerId = legacyBundleShimID then legacyCRLPath
         else "crls/" ++ identifier) =
        some { revokedCertificates := [], number := crlNumber
               thisUpdate := env.now, nextUpdate := env.now + d
               signatureAlgorithm := sigAlg, signer := thisIssuerId } := by
  refine ⟨{ st with
      storage := { st.storage with
        crls := (aset st.storage.crls
          (if thisIssuerId = legacyBundleShimID then legacyCRLPath
           else "crls/" ++ identifier)
          { revokedCertificates := [], number := crlNumber
            thisUpdate := env.now, nextUpdate := env.now + d
            signatureAlgorithm := sigAlg, signer := thisIssuerId }) }
      signed := st.signed ++ [(identifier, crlNumber)] }, ?_, ?_⟩
  · unfold buildCRL
    rw [hdur, hca]
    simp [hdis]
  · exact alookup_aset_self _ _ _

def crlInfoDisabledW : crlConfig := { defaultCrlConfig with disable := true }

def certW : Certificate :=
  { raw := "rawA", rawIssuer := "subjA", rawSubject := "subjA"
    serialNumber := 10, serialStr := "0a", notAfter := 10000, isCA := true }

def issuerDataW : IssuerData :=
  { entry := { keyID := "k1", revoked := false, revocationTimeUTC := 0
               crlSigningOK := true, revocationSigAlg := 1 }
    cert := some certW, caInfoOK := true }

def bIssW : Backend :=
  { tainted := false
    legacyBundle := false
    issuersList := Except.ok ["A"]
    issuerRepo := fun i => if i = "A" then some issuerDataW else none
    defaultIssuerId := "A" }

theorem buildCRL_disabled_forced_signs_empty_witness :
    ∃ st',
      buildCRL envW bIssW crlInfoDisabledW true "A"
        [{ serialNumber := 5, revocationTime := 7 }] "uuid-9" 3 stDisabledW =
        Except.ok (envW.now + 259200, st') ∧
      alookup st'.storage.crls
        (if "A" = legacyBundleShimID then legacyCRLPath
         else "crls/" ++ "uuid-9") =
        some { revokedCertificates := [], number := 3
               thisUpdate := envW.now, nextUpdate := envW.now + 259200
               signatureAlgorithm := 1, signer := "A" } :=
  buildCRL_disabled_forced_signs_empty envW bIssW crlInfoDisabledW "A"
    [{ serialNumber := 5, revocationTime := 7 }] "uuid-9" 3 stDisabledW
    259200 certW 1 (by decide) (by decide) (by decide)

/-- buildCRL never touches the builder state, the UUID counter, the
revoked/ entries, the certs/ entries or the cluster-local index; it only
writes a CRL blob and the ghost sign log. -/
theorem buildCRL_frame (env : Env) (b : Backend) (crlInfo : crlConfig)
    (forceNew : Bool) (thisIssuerId : String)
    (revoked : List RevokedCertificate) (identifier : String)
    (crlNumber : Int) (st : PkiState) (n : Int) (st' : PkiState)
    (h : buildCRL env b crlInfo forceNew thisIssuerId revoked identifier
      crlNumber st = Except.ok (n, st')) :
    st'.builder = st.builder ∧ st'.uuidCtr = st.uuidCtr ∧
    st'.storage.revoked = st.storage.revoked ∧
    st'.storage.localCRL = st.storage.localCRL ∧
    st'.storage.certs = st.storage.certs ∧
    (st'.signed = st.signed ∨
      st'.signed = st.signed ++ [(identifier, crlNumber)]) := by
  unfold buildCRL at h
  split at h
  · simp at h
  · split at h
    · simp only [Except.ok.injEq, Prod.mk.injEq] at h
      obtain ⟨-, h2⟩ := h
      subst h2
      exact ⟨rfl, rfl, rfl, rfl, rfl, Or.inl rfl⟩
    · split at h
      all_goals
        split at h
        · simp at h
        · simp only [Except.ok.injEq, Prod.mk.injEq] at h
          obtain ⟨-, h2⟩ := h
          subst h2
          exact ⟨rfl, rfl, rfl, rfl, rfl, Or.inr rfl⟩

/-- The state produced by the mint step of processClass keeps the builder
of its input. -/
theorem ite_bump_builder (c : Prop) [Decidable c] (st : PkiState) :
    (if c then { st with uuidCtr := st.uuidCtr + 1 } else st).builder =
      st.builder := by
  split <;> rfl

/-- The state produced by the mint step of processClass keeps the storage
of its input. -/
theorem ite_bump_storage (c : Prop) [Decidable c] (st : PkiState) :
    (if c then { st with uuidCtr := st.uuidCtr + 1 } else st).storage =
      st.storage := by
  split <;> rfl

/-- The state produced by the mint step of processClass keeps the sign log
of its input. -/
theorem ite_bump_signed (c : Prop) [Decidable c] (st : PkiState) :
    (if c then { st with uuidCtr := st.uuidCtr + 1 } else st).signed =
      st.signed := by
  split <;> rfl

/-- The mint step of processClass never decreases the UUID counter. -/
theorem ite_bump_uuid_le (c : Prop) [Decidable c] (st : PkiState) :
    st.uuidCtr ≤
      (if c then { st with uuidCtr := st.uuidCtr + 1 } else st).uuidCtr := by
  split <;> simp

/-- processClass never touches the builder state, the revoked/ or certs/
entries or the persisted cluster-local index, and only advances the UUID
counter. -/
theorem processClass_frame (env : Env) (b : Backend)
    (globalCRLConfig : crlConfig) (forceNew : Bool) (defaultIssuerId : String)
    (unassignedCerts : List RevokedCertificate)
    (revokedCertsMap : List (String × List RevokedCertificate))
    (cc : localCRLConfigEntry) (st : PkiState) (issuersSet : List String)
    (cc' : localCRLConfigEntry) (st' : PkiState)
    (h : processClass env b globalCRLConfig forceNew defaultIssuerId
      unassignedCerts revokedCertsMap cc st issuersSet =
      Except.ok (cc', st')) :
    st'.builder = st.builder ∧ st.uuidCtr ≤ st'.uuidCtr ∧
    st'.storage.revoked = st.storage.revoked ∧
    st'.storage.localCRL = st.storage.localCRL ∧
    st'.storage.certs = st.storage.certs := by
  unfold processClass at h
  split at h
  · simp only [Except.ok.injEq, Prod.mk.injEq] at h
    obtain ⟨-, h2⟩ := h
    subst h2
    exact ⟨rfl, le_refl _, rfl, rfl, rfl⟩
  · split at h
    · simp at h
    · dsimp only at h
      split at h
      · simp at h
      · rename_i nextUpdate st1 hb
        simp only [Except.ok.injEq, Prod.mk.injEq] at h
        obtain ⟨-, h2⟩ := h
        subst h2
        obtain ⟨hb1, hb2, hb3, hb4, hb5, -⟩ :=
          buildCRL_frame _ _ _ _ _ _ _ _ _ _ _ hb
        refine ⟨hb1.trans (ite_bump_builder _ _), ?_, ?_, ?_, ?_⟩
        · rw [hb2]
          exact ite_bump_uuid_le _ _
        · rw [hb3, ite_bump_storage]
        · rw [hb4, ite_bump_storage]
        · rw [hb5, ite_bump_storage]

/-- processClasses never touches the builder state, the revoked/ or certs/
entries or the persisted cluster-local index, and only advances the UUID
counter. -/
theorem processClasses_frame (env : Env) (b : Backend)
    (globalCRLConfig : crlConfig) (forceNew : Bool) (defaultIssuerId : String)
    (unassignedCerts : List RevokedCertificate)
    (revokedCertsMap : List (String × List RevokedCertificate)) :
    ∀ (cells : List ((String × String) × List String))
      (cc : localCRLConfigEntry) (st : PkiState) (cc' : localCRLConfigEntry)
      (st' : PkiState),
      processClasses env b globalCRLConfig forceNew defaultIssuerId
        unassignedCerts revokedCertsMap cells cc st = Except.ok (cc', st') →
      st'.builder = st.builder ∧ st.uuidCtr ≤ st'.uuidCtr ∧
      st'.storage.revoked = st.storage.revoked ∧
      st'.storage.localCRL = st.storage.localCRL ∧
      st'.storage.certs = st.storage.certs := by
  intro cells
  induction cells with
  | nil =>
      intro cc st cc' st' h
      simp only [processClasses, Except.ok.injEq, Prod.mk.injEq] at h
      obtain ⟨-, h2⟩ := h
      subst h2
      exact ⟨rfl, le_refl _, rfl, rfl, rfl⟩
  | cons cell rest ih =>
      intro cc st cc' st' h
      unfold processClasses at h
      split at h
      · simp at h
      · rename_i cc1 st1 hp
        obtain ⟨h1, h2, h3, h4, h5⟩ :=
          processClass_frame _ _ _ _ _ _ _ _ _ _ _ _ hp
        obtain ⟨g1, g2, g3, g4, g5⟩ := ih _ _ _ _ h
        exact ⟨g1.trans h1, le_trans h2 g2, g3.trans h3, g4.trans h4,
          g5.trans h5⟩

/-- buildCRLs never changes the builder's force-rebuild flag. -/
theorem buildCRLs_forceRebuild_eq (env : Env) (b : Backend) (forceNew : Bool)
    (st st' : PkiState) (h : buildCRLs env b forceNew st = Except.ok st') :
    st'.builder.forceRebuild = st.builder.forceRebuild := by
  have hcfg := (getConfigWithUpdate_frame st).2.2.2
  unfold buildCRLs at h
  dsimp only at h
  split at h
  · simp only [Except.ok.injEq] at h
    rw [← h]
    exact hcfg
  · split at h
    · simp at h
    · split at h
      · simp at h
      · split at h
        · simp at h
        · split at h
          · simp at h
          · rename_i cc1 st1 hp
            obtain ⟨h1, -, -, -, -⟩ :=
              processClasses_frame _ _ _ _ _ _ _ _ _ _ _ _ hp
            have h1' : st1.builder.forceRebuild = st.builder.forceRebuild := by
              rw [h1]
              exact hcfg
            split at h
            all_goals
              simp only [Except.ok.injEq] at h
              rw [← h]
              exact h1'

/-- Claim C7: the rebuild routine clears the force-rebuild flag before it
begins building (the build runs on a state whose flag is already 0), never
after completion; consequently every successful rebuildIfForced returns
with the force-rebuild flag equal to 0. -/
theorem rebuildIfForced_clears_flag_first (env : Env) (b : Backend)
    (st st' : PkiState) (hle : st.builder.forceRebuild ≤ 1)
    (h : rebuildIfForced env b st = Except.ok st') :
    st'.builder.forceRebuild = 0 ∧
    (st.builder.forceRebuild = 1 →
      rebuildIfForced env b st =
        buildCRLs env b true
          { st with builder := { st.builder with forceRebuild := 0 } }) := by
  by_cases hf : st.builder.forceRebuild = 1
  · have hred : rebuildIfForced env b st =
        buildCRLs env b true
          { st with builder := { st.builder with forceRebuild := 0 } } := by
      unfold rebuildIfForced _doRebuild
      simp [hf, _enforceForceFlag]
    rw [hred] at h
    refine ⟨?_, fun _ => hred⟩
    rw [buildCRLs_forceRebuild_eq env b true _ st' h]
  · unfold rebuildIfForced at h
    rw [if_neg hf] at h
    simp only [Except.ok.injEq] at h
    rw [← h]
    exact ⟨by omega, fun h1 => absurd h1 hf⟩

def stForceW : PkiState :=
  { storage := { revoked := [], certs := [], crls := []
                 localCRL := { issuerIDCRLMap := [], crlNumberMap := []
                               crlExpirationMap := [] }
                 revConfig := none }
    builder := { forceRebuild := 1, dirty := false
                 config := defaultCrlConfig }
    uuidCtr := 0
    signed := [] }

def stForceW0 : PkiState :=
  { stForceW with builder := { stForceW.builder with forceRebuild := 0 } }

theorem rebuildIfForced_clears_flag_first_witness :
    stForceW0.builder.forceRebuild = 0 ∧
    (stForceW.builder.forceRebuild = 1 →
      rebuildIfForced envW bW stForceW =
        buildCRLs envW bW true
          { stForceW with builder :=
            { stForceW.builder with forceRebuild := 0 } }) :=
  rebuildIfForced_clears_flag_first envW bW stForceW stForceW0 (by decide)
    (by decide)

/-- Claim C9: when rebuild is called with forceNew = false while the
force-rebuild flag is 1, the flag is cleared and the build runs with
forceNew promoted to true. -/
theorem rebuild_promotes_pending_force (env : Env) (b : Backend)
    (st : PkiState) (h : st.builder.forceRebuild = 1) :
    rebuild env b false st =
      buildCRLs env b true
        { st with builder := { st.builder with forceRebuild := 0 } } := by
  unfold rebuild _doRebuild
  simp [h, _ignoreForceFlag]

theorem rebuild_promotes_pending_force_witness :
    rebuild envW bW false stForceW =
      buildCRLs envW bW true
        { stForceW with builder :=
          { stForceW.builder with forceRebuild := 0 } } :=
  rebuild_promotes_pending_force envW bW stForceW (by decide)

/-- Claim C3: when the certificate exists, is not already revoked, and has
NotAfter earlier than now plus 2 seconds, revokeCert returns a success
response carrying the already-expired warning and changes nothing in
storage. -/
theorem revokeCert_expired_warns_no_write (env : Env) (b : Backend)
    (serial : String) (fromLease : Bool) (st : PkiState)
    (issuers : List String) (m : List (String × Certificate))
    (certBytes : String) (cert : Certificate)
    (ht : b.tainted = false)
    (hleg : b.legacyBundle = false)
    (hiss : b.issuersList = Except.ok issuers)
    (hscan : revIssuerScanAux b (normalizeSerial serial) issuers []
      = Except.ok (none, m))
    (hnorev : alookup st.storage.revoked (normalizeSerial serial) = none)
    (hcert : alookup st.storage.certs (normalizeSerial serial) =
      some certBytes)
    (hparse : env.parseCert certBytes = some cert)
    (hexp : cert.notAfter < env.now + 2) :
    revokeCert env b serial fromLease st =
      Except.ok (some (warnResponse ("certificate with serial " ++ serial ++
        " already expired; refusing to add to CRL")), st) := by
  unfold revokeCert
  simp [ht, hleg, hiss, hscan, hnorev, hcert, hparse, hexp]

def certExpW : Certificate :=
  { raw := "rawC", rawIssuer := "subjA", rawSubject := "subjC"
    serialNumber := 77, serialStr := "4d", notAfter := 50, isCA := false }

def envRevW : Env :=
  { envW with parseCert := fun s => if s = "blobC" then some certExpW
      else none }

def stExpW : PkiState :=
  { stForceW with
    storage := { stForceW.storage with certs := [("4d", "blobC")] }
    builder := { stForceW.builder with forceRebuild := 0 } }

theorem revokeCert_expired_warns_no_write_witness :
    revokeCert envRevW bW "4D" false stExpW =
      Except.ok (some (warnResponse ("certificate with serial " ++ "4D" ++
        " already expired; refusing to add to CRL")), stExpW) :=
  revokeCert_expired_warns_no_write envRevW bW "4D" false stExpW [] []
    "blobC" certExpW (by decide) (by decide) (by decide) (by decide)
    (by decide) (by decide) (by decide) (by decide)

/-- revIssuerScanAux returns the self-revocation user error as soon as it
reaches an issuer whose certificate serial equals the canonicalized
serial, for any accumulator. -/
theorem revIssuerScanAux_finds_self (b : Backend) (colonSerial : String) :
    ∀ (pre : List String) (i : String) (post : List String)
      (acc : List (String × Certificate)) (di : IssuerData)
      (ci : Certificate),
      (∀ j ∈ pre, ∃ dj cj, b.issuerRepo j = some dj ∧ dj.cert = some cj ∧
        serialFromCert cj ≠ colonSerial) →
      b.issuerRepo i = some di → di.cert = some ci →
      serialFromCert ci = colonSerial →
      ∃ acc', revIssuerScanAux b colonSerial (pre ++ i :: post) acc =
        Except.ok (some (errorResponse ("adding issuer (id: " ++ i ++
          ") to its own CRL is not allowed")), acc') := by
  intro pre
  induction pre with
  | nil =>
      intro i post acc di ci hpre hdi hci hser
      refine ⟨acc, ?_⟩
      simp [revIssuerScanAux, hdi, hci, hser.symm]
  | cons j rest ih =>
      intro i post acc di ci hpre hdi hci hser
      obtain ⟨dj, cj, hdj, hcj, hne⟩ := hpre j (List.mem_cons_self _ _)
      obtain ⟨acc', hacc⟩ := ih i post (aset acc j cj)
        di ci (fun k hk => hpre k (List.mem_cons_of_mem _ hk)) hdi hci hser
      refine ⟨acc', ?_⟩
      simpa [revIssuerScanAux, hdj, hcj, Ne.symm hne] using hacc

/-- Claim C10: the issuer-self-revocation check precedes the
already-revoked lookup: a serial that canonicalizes to a known issuer's
own serial draws the user error even when a revocation entry for that
serial already exists in storage, and the call changes nothing. -/
theorem revokeCert_self_issuer_error_first (env : Env) (b : Backend)
    (serial : String) (fromLease : Bool) (st : PkiState)
    (pre post : List String) (i : String) (di : IssuerData)
    (ci : Certificate) (rv : revocationInfo)
    (ht : b.tainted = false)
    (hleg : b.legacyBundle = false)
    (hiss : b.issuersList = Except.ok (pre ++ i :: post))
    (hpre : ∀ j ∈ pre, ∃ dj cj, b.issuerRepo j = some dj ∧
      dj.cert = some cj ∧ serialFromCert cj ≠ normalizeSerial serial)
    (hdi : b.issuerRepo i = some di) (hci : di.cert = some ci)
    (hser : serialFromCert ci = normalizeSerial serial)
    (_hrev : alookup st.storage.revoked (normalizeSerial serial) = some rv) :
    revokeCert env b serial fromLease st =
      Except.ok (some (errorResponse ("adding issuer (id: " ++ i ++
        ") to its own CRL is not allowed")), st) := by
  obtain ⟨acc', hacc⟩ := revIssuerScanAux_finds_self b (normalizeSerial serial)
    pre i post [] di ci hpre hdi hci hser
  unfold revokeCert
  simp [ht, hleg, hiss, hacc]

def rvW : revocationInfo :=
  { certificateBytes := "rawOld", revocationTime := 42
    revocationTimeUTC := 42, certificateIssuer := "" }

def stRevokedW : PkiState :=
  { stForceW with
    storage := { stForceW.storage with revoked := [("0a", rvW)] }
    builder := { stForceW.builder with forceRebuild := 0 } }

theorem revokeCert_self_issuer_error_first_witness :
    revokeCert envW bIssW "0A" false stRevokedW =
      Except.ok (some (errorResponse ("adding issuer (id: " ++ "A" ++
        ") to its own CRL is not allowed")), stRevokedW) :=
  revokeCert_self_issuer_error_first envW bIssW "0A" false stRevokedW
    [] [] "A" issuerDataW certW rvW (by decide) (by decide) (by decide)
    (by intro j hj; exact absurd hj (List.not_mem_nil j)) (by decide)
    (by decide) (by decide) (by decide)

/-- Claim C8: revoking a serial that already has a revocation entry
succeeds without error and without writing: the stored entry is reused
(the certificate-loading and expiry checks are skipped — nothing about
certs/ is assumed), the response carries the previously stored
revocation_time, and storage is unchanged.  Stated under auto-rebuild so
that no synchronous rebuild runs after the lookup. -/
theorem revokeCert_already_revoked_idempotent (env : Env) (b : Backend)
    (serial : String) (fromLease : Bool) (st : PkiState)
    (issuers : List String) (m : List (String × Certificate))
    (rv : revocationInfo)
    (ht : b.tainted = false)
    (hleg : b.legacyBundle = false)
    (hiss : b.issuersList = Except.ok issuers)
    (hscan : revIssuerScanAux b (normalizeSerial serial) issuers [] =
      Except.ok (none, m))
    (hrev : alookup st.storage.revoked (normalizeSerial serial) = some rv)
    (hauto : (getConfigWithUpdate st).1.autoRebuild = true) :
    revokeCert env b serial fromLease st =
      Except.ok (some (successResponse rv), (getConfigWithUpdate st).2) ∧
    ((getConfigWithUpdate st).2).storage = st.storage ∧
    (successResponse rv).revocationTime = some rv.revocationTime ∧
    (successResponse rv).errMsg = none := by
  refine ⟨?_, (getConfigWithUpdate_frame st).1, rfl, rfl⟩
  unfold revokeCert finishRevoke
  simp [ht, hleg, hiss, hscan, hrev, hauto]

def stAutoRevokedW : PkiState :=
  { stRevokedW with builder := { stRevokedW.builder with
      config := { defaultCrlConfig with autoRebuild := true } } }

theorem revokeCert_already_revoked_idempotent_witness :
    revokeCert envW bW "0A" false stAutoRevokedW =
      Except.ok (some (successResponse rvW),
        (getConfigWithUpdate stAutoRevokedW).2) ∧
    ((getConfigWithUpdate stAutoRevokedW).2).storage =
      stAutoRevokedW.storage ∧
    (successResponse rvW).revocationTime = some rvW.revocationTime ∧
    (successResponse rvW).errMsg = none :=
  revokeCert_already_revoked_idempotent envW bW "0A" false stAutoRevokedW
    [] [] rvW (by decide) (by decide) (by decide) (by decide) (by decide)
    (by decide)

/-- Any member of a bucket after aappend was in that bucket before, or is
the appended value at the appended key. -/
theorem aappend_bucket_mem {α β : Type} [DecidableEq α]
    (l : List (α × List β)) (key : α) (v : β) (k : α) (c : β)
    (h : c ∈ (alookup (aappend l key v) k).getD []) :
    c ∈ (alookup l k).getD [] ∨ (k = key ∧ c = v) := by
  unfold aappend at h
  by_cases hk : k = key
  · subst hk
    rw [alookup_aset_self] at h
    simp only [Option.getD_some, List.mem_append, List.mem_singleton] at h
    rcases h with h | h
    · left
      exact h
    · right
      exact ⟨rfl, h⟩
  · rw [alookup_aset_ne _ _ _ _ hk] at h
    left
    exact h

/-- Bucket members produced by the serial-grouping fold come from the
accumulator's buckets or from the folded list's values. -/
theorem foldl_aappend_serial_mem (todo : List (String × Certificate)) :
    ∀ (acc : List (String × List Certificate)) (k : String) (c : Certificate),
      c ∈ (alookup (todo.foldl
        (fun m kv => aappend m (serialFromCert kv.2) kv.2) acc) k).getD [] →
      c ∈ (alookup acc k).getD [] ∨ ∃ i, (i, c) ∈ todo := by
  induction todo with
  | nil =>
      intro acc k c h
      left
      exact h
  | cons kv rest ih =>
      intro acc k c h
      rcases ih _ k c h with h | ⟨i, hi⟩
      · rcases aappend_bucket_mem _ _ _ _ _ h with h | ⟨-, hc⟩
        · left
          exact h
        · right
          refine ⟨kv.1, ?_⟩
          rw [hc]
          exact List.mem_cons_self _ _
      · right
        exact ⟨i, List.mem_cons_of_mem _ hi⟩

/-- Every certificate in a bucket of issuerSerialCertMapOf is one of the
issuer map's certificates. -/
theorem issuerSerialCertMapOf_mem (l : List (String × Certificate))
    (k : String) (c : Certificate)
    (h : c ∈ (alookup (issuerSerialCertMapOf l) k).getD []) :
    ∃ i, (i, c) ∈ l := by
  rcases foldl_aappend_serial_mem l [] k c h with h | h
  · simp [alookup] at h
  · exact h

/-- When some issuer in the map matches (raw issuer equals raw subject and
the signature verifies), associateRevokedCertWithIsssuer sets the entry's
issuer to such an issuer and reports success. -/
theorem associate_finds_match (env : Env) (revInfo : revocationInfo)
    (cert : Certificate) :
    ∀ l : List (String × Certificate),
      (∃ p ∈ l, cert.rawIssuer = p.2.rawSubject ∧
        env.checkSig cert p.2 = true) →
      ∃ p ∈ l, cert.rawIssuer = p.2.rawSubject ∧
        env.checkSig cert p.2 = true ∧
        associateRevokedCertWithIsssuer env revInfo cert l =
          ({ revInfo with certificateIssuer := p.1 }, true) := by
  intro l
  induction l with
  | nil =>
      rintro ⟨p, hp, -⟩
      exact absurd hp (List.not_mem_nil p)
  | cons q rest ih =>
      rintro ⟨p, hp, hc1, hc2⟩
      obtain ⟨qid, qc⟩ := q
      by_cases h1 : cert.rawIssuer = qc.rawSubject
      · by_cases h2 : env.checkSig cert qc = true
        · exact ⟨(qid, qc), List.mem_cons_self _ _, h1, h2,
            by simp [associateRevokedCertWithIsssuer, h1, h2]⟩
        · have hpr : p ∈ rest := by
            rcases List.mem_cons.mp hp with h | h
            · rw [h] at hc2
              exact absurd hc2 h2
            · exact h
          obtain ⟨p', hp', hc1', hc2', heq⟩ := ih ⟨p, hpr, hc1, hc2⟩
          exact ⟨p', List.mem_cons_of_mem _ hp', hc1', hc2',
            by simp [associateRevokedCertWithIsssuer, h1, h2, heq]⟩
      · have hpr : p ∈ rest := by
          rcases List.mem_cons.mp hp with h | h
          · rw [h] at hc1
            exact absurd hc1 h1
          · exact h
        obtain ⟨p', hp', hc1', hc2', heq⟩ := ih ⟨p, hpr, hc1, hc2⟩
        exact ⟨p', List.mem_cons_of_mem _ hp', hc1', hc2',
          by simp [associateRevokedCertWithIsssuer, h1, heq]⟩

/-- The revoked-entry loop never rewrites a storage key that does not occur
among the serials still to process. -/
theorem getRevokedCertEntriesAux_untouched (env : Env)
    (certMap : List (String × Certificate))
    (serialMap : List (String × List Certificate)) :
    ∀ (todo : List (String × revocationInfo))
      (u : List RevokedCertificate)
      (m : List (String × List RevokedCertificate))
      (acc : List (String × revocationInfo))
      (u' : List RevokedCertificate)
      (m' : List (String × List RevokedCertificate))
      (store' : List (String × revocationInfo)),
      getRevokedCertEntriesAux env certMap serialMap todo u m acc =
        Except.ok (u', m', store') →
      ∀ k : String, (∀ e ∈ todo, e.1 ≠ k) →
      alookup store' k = alookup acc k := by
  intro todo
  induction todo with
  | nil =>
      intro u m acc u' m' store' h k hk
      simp only [getRevokedCertEntriesAux, Except.ok.injEq,
        Prod.mk.injEq] at h
      rw [← h.2.2]
  | cons e rest ih =>
      intro u m acc u' m' store' h k hk
      obtain ⟨s0, r0⟩ := e
      have hk0 : s0 ≠ k := hk (s0, r0) (List.mem_cons_self _ _)
      have hkr : ∀ e ∈ rest, e.1 ≠ k :=
        fun e he => hk e (List.mem_cons_of_mem _ he)
      unfold getRevokedCertEntriesAux at h
      split at h
      · simp at h
      · split at h
        · exact ih _ _ _ _ _ _ h k hkr
        · dsimp only at h
          split at h
          · exact ih _ _ _ _ _ _ h k hkr
          · split at h
            · rw [ih _ _ _ _ _ _ h k hkr]
              exact alookup_aset_ne _ _ _ _ (Ne.symm hk0)
            · exact ih _ _ _ _ _ _ h k hkr

/-- When a pending entry has no issuer association, parses, is not an
issuer's own certificate, and some issuer matches it, the revoked-entry
loop persists the entry updated with such a matching issuer. -/
theorem getRevokedCertEntriesAux_assoc (env : Env)
    (certMap : List (String × Certificate))
    (serialMap : List (String × List Certificate))
    (hserialMap : ∀ k c, c ∈ (alookup serialMap k).getD [] →
      ∃ i, (i, c) ∈ certMap) :
    ∀ (todo : List (String × revocationInfo))
      (u : List RevokedCertificate)
      (m : List (String × List RevokedCertificate))
      (acc : List (String × revocationInfo))
      (u' : List RevokedCertificate)
      (m' : List (String × List RevokedCertificate))
      (store' : List (String × revocationInfo))
      (serial : String) (rv : revocationInfo) (cert : Certificate),
      (todo.map Prod.fst).Nodup →
      (serial, rv) ∈ todo →
      rv.certificateIssuer = "" →
      env.parseCert rv.certificateBytes = some cert →
      (∀ p ∈ certMap, p.2.raw ≠ cert.raw) →
      (∃ p ∈ certMap, cert.rawIssuer = p.2.rawSubject ∧
        env.checkSig cert p.2 = true) →
      getRevokedCertEntriesAux env certMap serialMap todo u m acc =
        Except.ok (u', m', store') →
      ∃ p ∈ certMap, cert.rawIssuer = p.2.rawSubject ∧
        env.checkSig cert p.2 = true ∧
        alookup store' serial =
          some { rv with certificateIssuer := p.1 } := by
  intro todo
  induction todo with
  | nil =>
      intro u m acc u' m' store' serial rv cert hnd hmem
      exact absurd hmem (List.not_mem_nil _)
  | cons e rest ih =>
      intro u m acc u' m' store' serial rv cert hnd hmem hempty hparse
        hnoskip hmatch h
      obtain ⟨s0, r0⟩ := e
      rcases List.mem_cons.mp hmem with hhead | hrest
      · rw [Prod.mk.injEq] at hhead
        obtain ⟨hs, hr⟩ := hhead
        subst hs
        subst hr
        have hnotin : serial ∉ rest.map Prod.fst := by
          rw [List.map_cons, List.nodup_cons] at hnd
          exact hnd.1
        have hskipF : (((alookup serialMap (serialFromCert cert)).getD
            []).any (fun candidate => candidate.raw == cert.raw)) = false := by
          rw [List.any_eq_false]
          intro c hc
          obtain ⟨i, hic⟩ := hserialMap _ _ hc
          simp only [beq_iff_eq]
          exact hnoskip (i, c) hic
        obtain ⟨p, hp, h1, h2, heq⟩ :=
          associate_finds_match env rv cert certMap hmatch
        unfold getRevokedCertEntriesAux at h
        rw [hparse] at h
        simp [hskipF, hempty, heq] at h
        refine ⟨p, hp, h1, h2, ?_⟩
        rw [getRevokedCertEntriesAux_untouched env certMap serialMap rest
          _ _ _ _ _ _ h serial
          (fun e he hke => hnotin (hke ▸ List.mem_map_of_mem Prod.fst he))]
        exact alookup_aset_self _ _ _
      · have hnd' : (rest.map Prod.fst).Nodup := by
          rw [List.map_cons, List.nodup_cons] at hnd
          exact hnd.2
        unfold getRevokedCertEntriesAux at h
        split at h
        · simp at h
        · split at h
          · exact ih _ _ _ _ _ _ _ _ _ hnd' hrest hempty hparse hnoskip
              hmatch h
          · dsimp only at h
            split at h
            · exact ih _ _ _ _ _ _ _ _ _ hnd' hrest hempty hparse hnoskip
                hmatch h
            · split at h
              · exact ih _ _ _ _ _ _ _ _ _ hnd' hrest hempty hparse hnoskip
                  hmatch h
              · exact ih _ _ _ _ _ _ _ _ _ hnd' hrest hempty hparse hnoskip
                  hmatch h

/-- Writing a revocation entry does not change which revocation config
getConfigWithUpdate loads. -/
theorem getConfigWithUpdate_put_cfg (st : PkiState)
    (srev : List (String × revocationInfo)) :
    (getConfigWithUpdate { st with storage :=
      { st.storage with revoked := srev } }).1 =
      (getConfigWithUpdate st).1 := by
  unfold getConfigWithUpdate
  by_cases h : st.builder.dirty <;> simp [h]

/-- Half of claim C4 about revoke: a fresh (not yet revoked) certificate
whose issuing CA is among the fetched issuers (raw issuer matches the
issuer's raw subject and the signature verifies) is persisted with
issuer_id set to such an issuer, and the response reports success. -/
theorem revokeCert_fresh_associates (env : Env) (b : Backend)
    (serial : String) (fromLease : Bool) (st : PkiState)
    (issuers : List String) (mcerts : List (String × Certificate))
    (certBytes : String) (cert : Certificate)
    (ht : b.tainted = false)
    (hleg : b.legacyBundle = false)
    (hiss : b.issuersList = Except.ok issuers)
    (hscan : revIssuerScanAux b (normalizeSerial serial) issuers [] =
      Except.ok (none, mcerts))
    (hnorev : alookup st.storage.revoked (normalizeSerial serial) = none)
    (hcert : alookup st.storage.certs (normalizeSerial serial) =
      some certBytes)
    (hparse : env.parseCert certBytes = some cert)
    (hnexp : ¬cert.notAfter < env.now + 2)
    (hnca : ¬(cert.isCA = true ∧ fromLease = true))
    (hauto : (getConfigWithUpdate st).1.autoRebuild = true)
    (hmatch : ∃ p ∈ mcerts, cert.rawIssuer = p.2.rawSubject ∧
      env.checkSig cert p.2 = true) :
    ∃ p ∈ mcerts, cert.rawIssuer = p.2.rawSubject ∧
      env.checkSig cert p.2 = true ∧
      ∃ stOut,
        revokeCert env b serial fromLease st =
          Except.ok (some (successResponse
            { certificateBytes := certBytes, revocationTime := env.now
              revocationTimeUTC := env.now, certificateIssuer := p.1 }),
            stOut) ∧
        alookup stOut.storage.revoked (normalizeSerial serial) =
          some { certificateBytes := certBytes, revocationTime := env.now
                 revocationTimeUTC := env.now, certificateIssuer := p.1 } := by
  obtain ⟨p, hp, h1, h2, heq⟩ := associate_finds_match env
    { certificateBytes := certBytes, revocationTime := env.now
      revocationTimeUTC := env.now, certificateIssuer := "" } cert mcerts
    hmatch
  refine ⟨p, hp, h1, h2,
    (getConfigWithUpdate { st with storage := { st.storage with
      revoked := (aset st.storage.revoked (normalizeSerial serial)
        { certificateBytes := certBytes, revocationTime := env.now
          revocationTimeUTC := env.now, certificateIssuer := p.1 }) } }).2,
    ?_, ?_⟩
  · unfold revokeCert finishRevoke
    simp [ht, hleg, hiss, hscan, hnorev, hcert, hparse, hnexp, hnca, heq]
    intro hfalse
    rw [getConfigWithUpdate_put_cfg, hauto] at hfalse
    simp at hfalse
  · rw [(getConfigWithUpdate_frame _).1]
    exact alookup_aset_self _ _ _

/-- Half of claim C4 about the build: a persisted revocation entry with no
issuer association whose certificate parses, is not an issuer's own
certificate, and is matched by some collected issuer, is rewritten by the
next successful buildCRLs with CertificateIssuer set to such an issuer. -/
theorem buildCRLs_associates_entry (env : Env) (b : Backend)
    (forceNew : Bool) (st st' : PkiState) (issuers : List String)
    (em : List (String × issuerEntry)) (cm : List (String × Certificate))
    (ks : List ((String × String) × List String))
    (serial : String) (rv : revocationInfo) (cert : Certificate)
    (hleg : b.legacyBundle = false)
    (hiss : b.issuersList = Except.ok issuers)
    (hrun : ¬((getConfigWithUpdate st).1.disable = true ∧
      ¬forceNew = true))
    (hcoll : collectIssuersAux b issuers [] [] [] = Except.ok (em, cm, ks))
    (hnd : (st.storage.revoked.map Prod.fst).Nodup)
    (hmem : (serial, rv) ∈ st.storage.revoked)
    (hempty : rv.certificateIssuer = "")
    (hparse : env.parseCert rv.certificateBytes = some cert)
    (hnoskip : ∀ p ∈ cm, p.2.raw ≠ cert.raw)
    (hmatch : ∃ p ∈ cm, cert.rawIssuer = p.2.rawSubject ∧
      env.checkSig cert p.2 = true)
    (hok : buildCRLs env b forceNew st = Except.ok st') :
    ∃ p ∈ cm, cert.rawIssuer = p.2.rawSubject ∧
      env.checkSig cert p.2 = true ∧
      alookup st'.storage.revoked serial =
        some { rv with certificateIssuer := p.1 } := by
  have hsto : ((getConfigWithUpdate st).2).storage = st.storage :=
    (getConfigWithUpdate_frame st).1
  unfold buildCRLs at hok
  dsimp only at hok
  rw [if_neg hrun, hsto] at hok
  rw [hiss] at hok
  simp only [hleg, Bool.false_eq_true, not_false_eq_true, if_true,
    hcoll] at hok
  split at hok
  · simp at hok
  · rename_i u m store' hget
    split at hok
    · simp at hok
    · rename_i ccf st2 hproc
      simp only [Except.ok.injEq] at hok
      obtain ⟨-, -, hrevoked, -, -⟩ :=
        processClasses_frame _ _ _ _ _ _ _ _ _ _ _ _ hproc
      unfold getRevokedCertEntries at hget
      obtain ⟨p, hp, h1, h2, hlook⟩ :=
        getRevokedCertEntriesAux_assoc env cm (issuerSerialCertMapOf cm)
          (issuerSerialCertMapOf_mem cm) st.storage.revoked [] []
          st.storage.revoked u m store' serial rv cert hnd hmem hempty
          hparse hnoskip hmatch hget
      refine ⟨p, hp, h1, h2, ?_⟩
      rw [← hok]
      show alookup st2.storage.revoked serial = _
      rw [hrevoked]
      exact hlook

/-- Claim C4: after a successful revoke of a certificate whose issuing CA
is among the known issuers (raw issuer equals the issuer's raw subject and
the signature verifies), the persisted entry at revoked/ has issuer_id set
to such an issuer; otherwise (entry persisted without association), the
next successful buildCRLs that finds such an issuer sets
CertificateIssuer on the entry and persists the updated entry. -/
theorem revocation_entry_issuer_roundtrip :
    (∀ (env : Env) (b : Backend) (serial : String) (fromLease : Bool)
      (st : PkiState) (issuers : List String)
      (mcerts : List (String × Certificate)) (certBytes : String)
      (cert : Certificate),
      b.tainted = false →
      b.legacyBundle = false →
      b.issuersList = Except.ok issuers →
      revIssuerScanAux b (normalizeSerial serial) issuers [] =
        Except.ok (none, mcerts) →
      alookup st.storage.revoked (normalizeSerial serial) = none →
      alookup st.storage.certs (normalizeSerial serial) = some certBytes →
      env.parseCert certBytes = some cert →
      ¬cert.notAfter < env.now + 2 →
      ¬(cert.isCA = true ∧ fromLease = true) →
      (getConfigWithUpdate st).1.autoRebuild = true →
      (∃ p ∈ mcerts, cert.rawIssuer = p.2.rawSubject ∧
        env.checkSig cert p.2 = true) →
      ∃ p ∈ mcerts, cert.rawIssuer = p.2.rawSubject ∧
        env.checkSig cert p.2 = true ∧
        ∃ stOut,
          revokeCert env b serial fromLease st =
            Except.ok (some (successResponse
              { certificateBytes := certBytes, revocationTime := env.now
                revocationTimeUTC := env.now, certificateIssuer := p.1 }),
              stOut) ∧
          alookup stOut.storage.revoked (normalizeSerial serial) =
            some { certificateBytes := certBytes
                   revocationTime := env.now
                   revocationTimeUTC := env.now
                   certificateIssuer := p.1 }) ∧
    (∀ (env : Env) (b : Backend) (forceNew : Bool) (st st' : PkiState)
      (issuers : List String) (em : List (String × issuerEntry))
      (cm : List (String × Certificate))
      (ks : List ((String × String) × List String))
      (serial : String) (rv : revocationInfo) (cert : Certificate),
      b.legacyBundle = false →
      b.issuersList = Except.ok issuers →
      ¬((getConfigWithUpdate st).1.disable = true ∧ ¬forceNew = true) →
      collectIssuersAux b issuers [] [] [] = Except.ok (em, cm, ks) →
      (st.storage.revoked.map Prod.fst).Nodup →
      (serial, rv) ∈ st.storage.revoked →
      rv.certificateIssuer = "" →
      env.parseCert rv.certificateBytes = some cert →
      (∀ p ∈ cm, p.2.raw ≠ cert.raw) →
      (∃ p ∈ cm, cert.rawIssuer = p.2.rawSubject ∧
        env.checkSig cert p.2 = true) →
      buildCRLs env b forceNew st = Except.ok st' →
      ∃ p ∈ cm, cert.rawIssuer = p.2.rawSubject ∧
        env.checkSig cert p.2 = true ∧
        alookup st'.storage.revoked serial =
          some { rv with certificateIssuer := p.1 }) :=
  ⟨revokeCert_fresh_associates, buildCRLs_associates_entry⟩

def certIssW : Certificate :=
  { raw := "rawI", rawIssuer := "subjI", rawSubject := "subjI"
    serialNumber := 1, serialStr := "01", notAfter := 999999, isCA := true }

def certLeafW : Certificate :=
  { raw := "rawC", rawIssuer := "subjI", rawSubject := "subjL"
    serialNumber := 77, serialStr := "4d", notAfter := 999999, isCA := false }

def issuerDataIW : IssuerData :=
  { entry := { keyID := "k1", revoked := false, revocationTimeUTC := 0
               crlSigningOK := true, revocationSigAlg := 1 }
    cert := some certIssW, caInfoOK := true }

def bC4W : Backend :=
  { tainted := false, legacyBundle := false
    issuersList := Except.ok ["I"]
    issuerRepo := fun i => if i = "I" then some issuerDataIW else none
    defaultIssuerId := "I" }

def envC4W : Env :=
  { now := 100
    parseCert := fun s =>
      if s = "blobC" then some certLeafW
      else if s = "rawOldC" then some certLeafW
      else none
    checkSig := fun c i => c.rawIssuer == i.rawSubject
    parseDuration := fun s => if s = "72h" then some 259200 else none
    genId := fun n => "uuid-" ++ toString n }

def stA4W : PkiState :=
  { storage := { revoked := [], certs := [("4d", "blobC")], crls := []
                 localCRL := { issuerIDCRLMap := [], crlNumberMap := []
                               crlExpirationMap := [] }
                 revConfig := none }
    builder := { forceRebuild := 0, dirty := false
                 config := { defaultCrlConfig with autoRebuild := true } }
    uuidCtr := 0
    signed := [] }

def rvB4W : revocationInfo :=
  { certificateBytes := "rawOldC", revocationTime := 42
    revocationTimeUTC := 42, certificateIssuer := "" }

def stB4W : PkiState :=
  { storage := { revoked := [("4d", rvB4W)], certs := [], crls := []
                 localCRL := { issuerIDCRLMap := [], crlNumberMap := []
                               crlExpirationMap := [] }
                 revConfig := none }
    builder := { forceRebuild := 0, dirty := false
                 config := defaultCrlConfig }
    uuidCtr := 0
    signed := [] }

def stB4Out : PkiState :=
  (buildCRLs envC4W bC4W false stB4W).toOption.getD stB4W

set_option synthInstance.maxSize 1024 in
theorem revocation_entry_issuer_roundtrip_witness :
    (∃ p ∈ [("I", certIssW)], certLeafW.rawIssuer = p.2.rawSubject ∧
      envC4W.checkSig certLeafW p.2 = true ∧
      ∃ stOut,
        revokeCert envC4W bC4W "4D" false stA4W =
          Except.ok (some (successResponse
            { certificateBytes := "blobC", revocationTime := envC4W.now
              revocationTimeUTC := envC4W.now, certificateIssuer := p.1 }),
            stOut) ∧
        alookup stOut.storage.revoked (normalizeSerial "4D") =
          some { certificateBytes := "blobC"
                 revocationTime := envC4W.now
                 revocationTimeUTC := envC4W.now
                 certificateIssuer := p.1 }) ∧
    (∃ p ∈ [("I", certIssW)], certLeafW.rawIssuer = p.2.rawSubject ∧
      envC4W.checkSig certLeafW p.2 = true ∧
      alookup stB4Out.storage.revoked "4d" =
        some { rvB4W with certificateIssuer := p.1 }) :=
  ⟨revocation_entry_issuer_roundtrip.1 envC4W bC4W "4D" false stA4W
      ["I"] [("I", certIssW)] "blobC" certLeafW (by decide) (by decide)
      (by decide) (by decide) (by decide) (by decide) (by decide)
      (by decide) (by decide) (by decide) (by decide),
    revocation_entry_issuer_roundtrip.2 envC4W bC4W false stB4W stB4Out
      ["I"] [("I", issuerDataIW.entry)] [("I", certIssW)]
      [(("k1", "subjI"), ["I"])] "4d" rvB4W certLeafW (by decide)
      (by decide) (by decide) (by decide) (by decide) (by decide)
      (by decide) (by decide) (by decide) (by decide) (by decide)⟩

theorem alookup_mem {α β : Type} [DecidableEq α] :
    ∀ (l : List (α × β)) (k : α) (v : β), alookup l k = some v → (k, v) ∈ l := by
  intro l
  induction l with
  | nil =>
      intro k v h
      simp [alookup] at h
  | cons a rest ih =>
      intro k v h
      unfold alookup at h
      split at h
      · rename_i hk
        obtain hv := Option.some.inj h
        rw [← hk, ← hv]
        exact List.mem_cons_self _ _
      · exact List.mem_cons_of_mem _ (ih _ _ h)

theorem aset_keys_nodup {α β : Type} [DecidableEq α] :
    ∀ (l : List (α × β)) (k : α) (v : β),
      (l.map Prod.fst).Nodup → ((aset l k v).map Prod.fst).Nodup := by
  intro l
  induction l with
  | nil =>
      intro k v _
      simp [aset]
  | cons a rest ih =>
      intro k v h
      rw [List.map_cons, List.nodup_cons] at h
      by_cases hak : a.1 = k
      · simp only [aset, if_pos hak, List.map_cons, List.nodup_cons]
        exact ⟨h.1, h.2⟩
      · simp only [aset, if_neg hak, List.map_cons, List.nodup_cons]
        refine ⟨?_, ih _ _ h.2⟩
        intro hmem
        rcases List.mem_map.mp hmem with ⟨p, hp, hpk⟩
        rcases mem_aset _ _ _ _ hp with hp' | hp'
        · exact h.1 (hpk ▸ List.mem_map_of_mem Prod.fst hp')
        · rw [hp'] at hpk
          exact hak hpk.symm

theorem eq_of_mem_keys_nodup {α β : Type} :
    ∀ (l : List (α × β)), (l.map Prod.fst).Nodup →
      ∀ c1 ∈ l, ∀ c2 ∈ l, c1.1 = c2.1 → c1 = c2 := by
  intro l
  induction l with
  | nil =>
      intro _ c1 h1
      exact absurd h1 (List.not_mem_nil c1)
  | cons a rest ih =>
      intro h c1 h1 c2 h2 hk
      rw [List.map_cons, List.nodup_cons] at h
      rcases List.mem_cons.mp h1 with h1 | h1 <;>
        rcases List.mem_cons.mp h2 with h2 | h2
      · rw [h1, h2]
      · exfalso
        apply h.1
        rw [h1] at hk
        exact hk ▸ List.mem_map_of_mem Prod.fst h2
      · exfalso
        apply h.1
        rw [h2] at hk
        exact hk ▸ List.mem_map_of_mem Prod.fst h1
      · exact ih h.2 c1 h1 c2 h2 hk

theorem alookup_filter_of_key {α β : Type} [DecidableEq α] :
    ∀ (l : List (α × β)) (p : α × β → Bool) (k : α),
      (∀ v, p (k, v) = true) →
      alookup (l.filter p) k = alookup l k := by
  intro l
  induction l with
  | nil =>
      intro p k _
      rfl
  | cons a rest ih =>
      intro p k hp
      obtain ⟨a1, a2⟩ := a
      by_cases hak : a1 = k
      · subst hak
        rw [List.filter_cons_of_pos (hp a2)]
        simp [alookup, ih _ _ hp]
      · cases hpb : p (a1, a2)
        · rw [List.filter_cons_of_neg (by simp [hpb])]
          simp only [alookup, if_neg hak]
          exact ih _ _ hp
        · rw [List.filter_cons_of_pos hpb]
          simp only [alookup, if_neg hak]
          exact ih _ _ hp

/-- Assigning one value to every key of a set leaves other keys' bindings
unchanged. -/
theorem foldl_aset_not_mem {α β : Type} [DecidableEq α] (v : β) :
    ∀ (S : List α) (m : List (α × β)) (A : α), A ∉ S →
      alookup (S.foldl (fun m i => aset m i v) m) A = alookup m A := by
  intro S
  induction S with
  | nil =>
      intro m A _
      rfl
  | cons j rest ih =>
      intro m A hA
      rw [List.foldl_cons]
      rw [ih _ _ (fun hr => hA (List.mem_cons_of_mem _ hr))]
      exact alookup_aset_ne _ _ _ _ (fun he => hA (he ▸ List.mem_cons_self _ _))

/-- Assigning one value to every key of a set makes every member map to
that value. -/
theorem foldl_aset_mem {α β : Type} [DecidableEq α] (v : β) :
    ∀ (S : List α) (m : List (α × β)) (A : α), A ∈ S →
      alookup (S.foldl (fun m i => aset m i v) m) A = some v := by
  intro S
  induction S with
  | nil =>
      intro m A hA
      exact absurd hA (List.not_mem_nil A)
  | cons j rest ih =>
      intro m A hA
      rw [List.foldl_cons]
      by_cases hAr : A ∈ rest
      · exact ih _ _ hAr
      · have hAj : A = j := by
          rcases List.mem_cons.mp hA with h | h
          · exact h
          · exact absurd h hAr
        subst hAj
        rw [foldl_aset_not_mem _ _ _ _ hAr]
        exact alookup_aset_self _ _ _

/-- The (key id, raw subject) cell key determined by the issuer repository
for one issuer id. -/
def cellKeyOf (b : Backend) (i : String) (kp : String × String) : Prop :=
  ∃ d c, b.issuerRepo i = some d ∧ d.cert = some c ∧
    kp = (d.entry.keyID, c.rawSubject)

/-- The issuer-collection loop keeps the cell keys distinct and every cell
member's repository key equal to its cell's key. -/
theorem collectIssuersAux_cells_wf (b : Backend) :
    ∀ (todo : List String) (em : List (String × issuerEntry))
      (cm : List (String × Certificate))
      (ks : List ((String × String) × List String)) em' cm' ks',
      collectIssuersAux b todo em cm ks = Except.ok (em', cm', ks') →
      (ks.map Prod.fst).Nodup →
      (∀ cell ∈ ks, ∀ i ∈ cell.2, cellKeyOf b i cell.1) →
      (ks'.map Prod.fst).Nodup ∧
      (∀ cell ∈ ks', ∀ i ∈ cell.2, cellKeyOf b i cell.1) := by
  intro todo
  induction todo with
  | nil =>
      intro em cm ks em' cm' ks' h hnd hwf
      simp only [collectIssuersAux, Except.ok.injEq, Prod.mk.injEq] at h
      rw [← h.2.2]
      exact ⟨hnd, hwf⟩
  | cons issuer rest ih =>
      intro em cm ks em' cm' ks' h hnd hwf
      unfold collectIssuersAux at h
      split at h
      · simp at h
      · rename_i d hd
        split at h
        · exact ih _ _ _ _ _ _ h hnd hwf
        · split at h
          · exact ih _ _ _ _ _ _ h hnd hwf
          · split at h
            · simp at h
            · rename_i thisCert hcert
              refine ih _ _ _ _ _ _ h (aset_keys_nodup _ _ _ hnd) ?_
              intro cell hcell i hi
              rcases mem_aset _ _ _ _ hcell with hcell | hcell
              · exact hwf cell hcell i hi
              · rw [hcell]
                rw [hcell] at hi
                simp only at hi
                rcases List.mem_append.mp hi with hi | hi
                · cases halook : alookup ks
                      (d.entry.keyID, thisCert.rawSubject) with
                  | none =>
                      rw [halook] at hi
                      simp at hi
                  | some old =>
                      rw [halook] at hi
                      simp only [Option.getD_some] at hi
                      exact hwf _ (alookup_mem _ _ _ halook) i hi
                · rw [List.mem_singleton] at hi
                  rw [hi]
                  exact ⟨d, thisCert, hd, hcert, rfl⟩

/-- The issuer-collection loop only grows the equivalence cells. -/
theorem collectIssuersAux_bucket_grows (b : Backend) :
    ∀ (todo : List String) em cm ks em' cm' ks' (K : String × String)
      (i : String),
      collectIssuersAux b todo em cm ks = Except.ok (em', cm', ks') →
      i ∈ (alookup ks K).getD [] →
      i ∈ (alookup ks' K).getD [] := by
  intro todo
  induction todo with
  | nil =>
      intro em cm ks em' cm' ks' K i h hi
      simp only [collectIssuersAux, Except.ok.injEq, Prod.mk.injEq] at h
      rw [← h.2.2]
      exact hi
  | cons issuer rest ih =>
      intro em cm ks em' cm' ks' K i h hi
      unfold collectIssuersAux at h
      split at h
      · simp at h
      · rename_i d hd
        split at h
        · exact ih _ _ _ _ _ _ _ _ h hi
        · split at h
          · exact ih _ _ _ _ _ _ _ _ h hi
          · split at h
            · simp at h
            · rename_i thisCert hcert
              refine ih _ _ _ _ _ _ _ _ h ?_
              unfold aappend
              by_cases hK : K = (d.entry.keyID, thisCert.rawSubject)
              · rw [hK, alookup_aset_self]
                simp only [Option.getD_some, List.mem_append]
                left
                rw [← hK]
                exact hi
              · rw [alookup_aset_ne _ _ _ _ hK]
                exact hi

/-- Every listed issuer with a nonempty key id, CRL-signing usage and a
parseable certificate ends up in the cell of its (key id, raw subject). -/
theorem collectIssuersAux_mem (b : Backend) :
    ∀ (todo : List String) em cm ks em' cm' ks' (i : String)
      (d : IssuerData) (c : Certificate),
      collectIssuersAux b todo em cm ks = Except.ok (em', cm', ks') →
      i ∈ todo →
      b.issuerRepo i = some d →
      d.entry.keyID ≠ "" →
      d.entry.crlSigningOK = true →
      d.cert = some c →
      i ∈ (alookup ks' (d.entry.keyID, c.rawSubject)).getD [] := by
  intro todo
  induction todo with
  | nil =>
      intro em cm ks em' cm' ks' i d c h hi
      exact absurd hi (List.not_mem_nil i)
  | cons issuer rest ih =>
      intro em cm ks em' cm' ks' i d c h hi hd hknz hsig hc
      unfold collectIssuersAux at h
      split at h
      · simp at h
      · rename_i d0 hd0
        split at h
        · rename_i hk0
          rcases List.mem_cons.mp hi with hieq | hirest
          · exfalso
            rw [hieq] at hd
            rw [hd0] at hd
            obtain hdd := Option.some.inj hd
            rw [← hdd] at hknz
            exact hknz hk0
          · exact ih _ _ _ _ _ _ _ _ _ h hirest hd hknz hsig hc
        · split at h
          · rename_i hs0
            rcases List.mem_cons.mp hi with hieq | hirest
            · exfalso
              rw [hieq] at hd
              rw [hd0] at hd
              obtain hdd := Option.some.inj hd
              rw [← hdd] at hsig
              exact hs0 (of_eq_true (eq_true hsig))
            · exact ih _ _ _ _ _ _ _ _ _ h hirest hd hknz hsig hc
          · split at h
            · simp at h
            · rename_i thisCert hcert
              by_cases hirest : i ∈ rest
              · exact ih _ _ _ _ _ _ _ _ _ h hirest hd hknz hsig hc
              · have hieq : i = issuer := by
                  rcases List.mem_cons.mp hi with hh | hh
                  · exact hh
                  · exact absurd hh hirest
                subst hieq
                rw [hd0] at hd
                obtain hdd := Option.some.inj hd
                subst hdd
                rw [hcert] at hc
                obtain hcc := Option.some.inj hc
                subst hcc
                refine collectIssuersAux_bucket_grows b rest _ _ _ _ _ _ _ _
                  h ?_
                unfold aappend
                rw [alookup_aset_self]
                simp

/-- The mint step of processClass does not change the issuer→CRL-id map. -/
theorem ite_cc_issuerMap (c : Prop) [Decidable c] (cc : localCRLConfigEntry)
    (x : List (String × Int)) :
    (if c then { cc with crlNumberMap := x } else cc).issuerIDCRLMap =
      cc.issuerIDCRLMap := by
  split <;> rfl

/-- processClass points every member of its issuer set at one common
CRL id. -/
theorem processClass_assigns (env : Env) (b : Backend) (g : crlConfig)
    (forceNew : Bool) (dI : String) (u : List RevokedCertificate)
    (rm : List (String × List RevokedCertificate))
    (cc : localCRLConfigEntry) (st : PkiState) (S : List String)
    (cc' : localCRLConfigEntry) (st' : PkiState) (A B : String)
    (hA : A ∈ S) (hB : B ∈ S)
    (h : processClass env b g forceNew dI u rm cc st S =
      Except.ok (cc', st')) :
    ∃ id, alookup cc'.issuerIDCRLMap A = some id ∧
      alookup cc'.issuerIDCRLMap B = some id := by
  cases S with
  | nil => exact absurd hA (List.not_mem_nil A)
  | cons first tail =>
      unfold processClass at h
      rw [if_neg (List.cons_ne_nil first tail)] at h
      split at h
      · simp at h
      · dsimp only at h
        split at h
        · simp at h
        · simp only [Except.ok.injEq, Prod.mk.injEq] at h
          obtain ⟨hcc, -⟩ := h
          rw [← hcc]
          exact ⟨_, foldl_aset_mem _ _ _ _ hA, foldl_aset_mem _ _ _ _ hB⟩

/-- processClass leaves the CRL-id binding of issuers outside its set
unchanged. -/
theorem processClass_not_mem (env : Env) (b : Backend) (g : crlConfig)
    (forceNew : Bool) (dI : String) (u : List RevokedCertificate)
    (rm : List (String × List RevokedCertificate))
    (cc : localCRLConfigEntry) (st : PkiState) (S : List String)
    (cc' : localCRLConfigEntry) (st' : PkiState) (A : String)
    (hA : A ∉ S)
    (h : processClass env b g forceNew dI u rm cc st S =
      Except.ok (cc', st')) :
    alookup cc'.issuerIDCRLMap A = alookup cc.issuerIDCRLMap A := by
  cases S with
  | nil =>
      simp [processClass] at h
      rw [← h.1]
  | cons first tail =>
      unfold processClass at h
      rw [if_neg (List.cons_ne_nil first tail)] at h
      split at h
      · simp at h
      · dsimp only at h
        split at h
        · simp at h
        · simp only [Except.ok.injEq, Prod.mk.injEq] at h
          obtain ⟨hcc, -⟩ := h
          rw [← hcc]
          show alookup ((first :: tail).foldl _ _) A = _
          rw [foldl_aset_not_mem _ _ _ _ hA, ite_cc_issuerMap]

/-- processClasses leaves the CRL-id binding of an issuer in none of the
cells unchanged. -/
theorem processClasses_not_mem (env : Env) (b : Backend) (g : crlConfig)
    (forceNew : Bool) (dI : String) (u : List RevokedCertificate)
    (rm : List (String × List RevokedCertificate)) (A : String) :
    ∀ (cells : List ((String × String) × List String))
      (cc : localCRLConfigEntry) (st : PkiState)
      (cc' : localCRLConfigEntry) (st' : PkiState),
      (∀ c ∈ cells, A ∉ c.2) →
      processClasses env b g forceNew dI u rm cells cc st =
        Except.ok (cc', st') →
      alookup cc'.issuerIDCRLMap A = alookup cc.issuerIDCRLMap A := by
  intro cells
  induction cells with
  | nil =>
      intro cc st cc' st' _ h
      simp only [processClasses, Except.ok.injEq, Prod.mk.injEq] at h
      rw [← h.1]
  | cons cell rest ih =>
      intro cc st cc' st' hout h
      unfold processClasses at h
      split at h
      · simp at h
      · rename_i cc1 st1 hp
        rw [ih _ _ _ _ (fun c hc => hout c (List.mem_cons_of_mem _ hc)) h]
        exact processClass_not_mem _ _ _ _ _ _ _ _ _ _ _ _ _
          (hout cell (List.mem_cons_self _ _)) hp

/-- After processClasses runs over cells with distinct keys where both A
and B sit (only) in a shared cell, the produced index maps A and B to the
same CRL id. -/
theorem processClasses_same_cell (env : Env) (b : Backend) (g : crlConfig)
    (forceNew : Bool) (dI : String) (u : List RevokedCertificate)
    (rm : List (String × List RevokedCertificate)) (A B : String)
    (K : String × String) :
    ∀ (cells : List ((String × String) × List String))
      (cc : localCRLConfigEntry) (st : PkiState)
      (cc' : localCRLConfigEntry) (st' : PkiState),
      (cells.map Prod.fst).Nodup →
      (∀ c ∈ cells, A ∈ c.2 → c.1 = K) →
      (∀ c ∈ cells, B ∈ c.2 → c.1 = K) →
      (∃ c ∈ cells, A ∈ c.2 ∧ B ∈ c.2) →
      processClasses env b g forceNew dI u rm cells cc st =
        Except.ok (cc', st') →
      ∃ id, alookup cc'.issuerIDCRLMap A = some id ∧
        alookup cc'.issuerIDCRLMap B = some id := by
  intro cells
  induction cells with
  | nil =>
      intro cc st cc' st' _ _ _ hex _
      obtain ⟨c, hc, -⟩ := hex
      exact absurd hc (List.not_mem_nil c)
  | cons cell rest ih =>
      intro cc st cc' st' hnd hAk hBk hex h
      rw [List.map_cons, List.nodup_cons] at hnd
      unfold processClasses at h
      split at h
      · simp at h
      · rename_i cc1 st1 hp
        by_cases hAc : A ∈ cell.2
        · have hBc : B ∈ cell.2 := by
            obtain ⟨c0, hc0, hA0, hB0⟩ := hex
            rcases List.mem_cons.mp hc0 with hh | hh
            · rw [← hh]
              exact hB0
            · exfalso
              apply hnd.1
              have : c0.1 = K := hAk c0 (List.mem_cons_of_mem _ hh) hA0
              rw [hAk cell (List.mem_cons_self _ _) hAc, ← this]
              exact List.mem_map_of_mem Prod.fst hh
          obtain ⟨id, hidA, hidB⟩ := processClass_assigns _ _ _ _ _ _ _
            _ _ _ _ _ A B hAc hBc hp
          have hrA : ∀ c ∈ rest, A ∉ c.2 := by
            intro c hc hAc'
            apply hnd.1
            rw [hAk cell (List.mem_cons_self _ _) hAc,
              ← hAk c (List.mem_cons_of_mem _ hc) hAc']
            exact List.mem_map_of_mem Prod.fst hc
          have hrB : ∀ c ∈ rest, B ∉ c.2 := by
            intro c hc hBc'
            apply hnd.1
            rw [hBk cell (List.mem_cons_self _ _) hBc,
              ← hBk c (List.mem_cons_of_mem _ hc) hBc']
            exact List.mem_map_of_mem Prod.fst hc
          refine ⟨id, ?_, ?_⟩
          · rw [processClasses_not_mem _ _ _ _ _ _ _ A rest _ _ _ _ hrA h]
            exact hidA
          · rw [processClasses_not_mem _ _ _ _ _ _ _ B rest _ _ _ _ hrB h]
            exact hidB
        · have hex' : ∃ c ∈ rest, A ∈ c.2 ∧ B ∈ c.2 := by
            obtain ⟨c0, hc0, hA0, hB0⟩ := hex
            rcases List.mem_cons.mp hc0 with hh | hh
            · exfalso
              rw [← hh] at hAc
              exact hAc hA0
            · exact ⟨c0, hh, hA0, hB0⟩
          exact ih _ _ _ _ hnd.2
            (fun c hc => hAk c (List.mem_cons_of_mem _ hc))
            (fun c hc => hBk c (List.mem_cons_of_mem _ hc)) hex' h

/-- Claim C2: any two listed issuers with identical (key id, raw subject),
non-empty key id and CRL-signing usage are mapped to the same CRL id by
the cluster-local index after a successful (non-short-circuited)
buildCRLs run. -/
theorem buildCRLs_equivalence_closure (env : Env) (b : Backend)
    (forceNew : Bool) (st st' : PkiState) (issuers : List String)
    (A B : String) (dA dB : IssuerData) (cA cB : Certificate)
    (hleg : b.legacyBundle = false)
    (hiss : b.issuersList = Except.ok issuers)
    (hrun : ¬((getConfigWithUpdate st).1.disable = true ∧
      ¬forceNew = true))
    (hA : A ∈ issuers) (hB : B ∈ issuers)
    (hdA : b.issuerRepo A = some dA) (hcA : dA.cert = some cA)
    (hdB : b.issuerRepo B = some dB) (hcB : dB.cert = some cB)
    (hkey : dA.entry.keyID = dB.entry.keyID)
    (hknz : dA.entry.keyID ≠ "")
    (hsubj : cA.rawSubject = cB.rawSubject)
    (hsigA : dA.entry.crlSigningOK = true)
    (hsigB : dB.entry.crlSigningOK = true)
    (hok : buildCRLs env b forceNew st = Except.ok st') :
    ∃ id, alookup st'.storage.localCRL.issuerIDCRLMap A = some id ∧
      alookup st'.storage.localCRL.issuerIDCRLMap B = some id := by
  unfold buildCRLs at hok
  dsimp only at hok
  rw [if_neg hrun] at hok
  rw [hiss] at hok
  simp only [hleg, Bool.false_eq_true, not_false_eq_true, if_true] at hok
  split at hok
  · simp at hok
  · rename_i em cm ks hcoll
    split at hok
    · simp at hok
    · rename_i u m store' hget
      split at hok
      · simp at hok
      · rename_i ccf st2 hproc
        simp only [Except.ok.injEq] at hok
        have hwf := collectIssuersAux_cells_wf b issuers [] [] [] em cm ks
          hcoll (by simp)
          (fun cell hcell => absurd hcell (List.not_mem_nil _))
        have hmemA := collectIssuersAux_mem b issuers [] [] [] em cm ks
          A dA cA hcoll hA hdA hknz hsigA hcA
        have hmemB := collectIssuersAux_mem b issuers [] [] [] em cm ks
          B dB cB hcoll hB hdB (hkey ▸ hknz) hsigB hcB
        have hKeq : (dB.entry.keyID, cB.rawSubject) =
            (dA.entry.keyID, cA.rawSubject) := by
          rw [hkey, hsubj]
        rw [hKeq] at hmemB
        cases halook : alookup ks (dA.entry.keyID, cA.rawSubject) with
        | none =>
            rw [halook] at hmemA
            simp at hmemA
        | some lst =>
            rw [halook] at hmemA hmemB
            simp only [Option.getD_some] at hmemA hmemB
            have hcellmem : ((dA.entry.keyID, cA.rawSubject), lst) ∈ ks :=
              alookup_mem _ _ _ halook
            have hAk : ∀ c ∈ ks, A ∈ c.2 →
                c.1 = (dA.entry.keyID, cA.rawSubject) := by
              intro c hc hAc
              obtain ⟨d', c', hd', hc', hk'⟩ := hwf.2 c hc A hAc
              rw [hdA] at hd'
              obtain hdd := Option.some.inj hd'
              subst hdd
              rw [hcA] at hc'
              obtain hcc := Option.some.inj hc'
              subst hcc
              exact hk'
            have hBk : ∀ c ∈ ks, B ∈ c.2 →
                c.1 = (dA.entry.keyID, cA.rawSubject) := by
              intro c hc hBc
              obtain ⟨d', c', hd', hc', hk'⟩ := hwf.2 c hc B hBc
              rw [hdB] at hd'
              obtain hdd := Option.some.inj hd'
              subst hdd
              rw [hcB] at hc'
              obtain hcc := Option.some.inj hc'
              subst hcc
              rw [hk']
              exact hKeq
            obtain ⟨id, hidA, hidB⟩ := processClasses_same_cell env b
              (getConfigWithUpdate st).1 forceNew b.defaultIssuerId u
              (augmentWithRevokedIssuers env em cm m) A B
              (dA.entry.keyID, cA.rawSubject) ks _ _
              ccf st2 hwf.1 hAk hBk
              ⟨((dA.entry.keyID, cA.rawSubject), lst), hcellmem,
                hmemA, hmemB⟩ hproc
            rw [← hok]
            refine ⟨id, ?_, ?_⟩
            · show alookup (gcIssuerMap issuers ccf.issuerIDCRLMap) A =
                some id
              unfold gcIssuerMap
              rw [alookup_filter_of_key _ _ _ (fun v => by simp [hA])]
              exact hidA
            · show alookup (gcIssuerMap issuers ccf.issuerIDCRLMap) B =
                some id
              unfold gcIssuerMap
              rw [alookup_filter_of_key _ _ _ (fun v => by simp [hB])]
              exact hidB

def certC2BW : Certificate :=
  { raw := "rawB", rawIssuer := "subjI", rawSubject := "subjI"
    serialNumber := 2, serialStr := "02", notAfter := 999999, isCA := true }

def issuerDataBW : IssuerData :=
  { entry := { keyID := "k1", revoked := false, revocationTimeUTC := 0
               crlSigningOK := true, revocationSigAlg := 1 }
    cert := some certC2BW, caInfoOK := true }

def bC2W : Backend :=
  { tainted := false, legacyBundle := false
    issuersList := Except.ok ["A", "B"]
    issuerRepo := fun i =>
      if i = "A" then some issuerDataIW
      else if i = "B" then some issuerDataBW
      else none
    defaultIssuerId := "" }

def stC2W : PkiState :=
  { storage := { revoked := [], certs := [], crls := []
                 localCRL := { issuerIDCRLMap := [], crlNumberMap := []
                               crlExpirationMap := [] }
                 revConfig := none }
    builder := { forceRebuild := 0, dirty := false
                 config := defaultCrlConfig }
    uuidCtr := 0
    signed := [] }

def stC2Out : PkiState :=
  (buildCRLs envC4W bC2W false stC2W).toOption.getD stC2W

theorem buildCRLs_equivalence_closure_witness :
    ∃ id, alookup stC2Out.storage.localCRL.issuerIDCRLMap "A" = some id ∧
      alookup stC2Out.storage.localCRL.issuerIDCRLMap "B" = some id :=
  buildCRLs_equivalence_closure envC4W bC2W false stC2W stC2Out
    ["A", "B"] "A" "B" issuerDataIW issuerDataBW certIssW certC2BW
    (by decide) (by decide) (by decide) (by decide) (by decide)
    (by decide) (by decide) (by decide) (by decide) (by decide)
    (by decide) (by decide) (by decide) (by decide) (by decide)

/-- The CRL numbers signed for one CRL id, in the order they were signed
(read off the ghost sign log). -/
def signedFor (log : List (String × Int)) (id : String) : List Int :=
  (log.filter (fun e => decide (e.1 = id))).map Prod.snd

/-- Every number signed so far for an id is strictly below the number map's
current value for that id. -/
def NumInv (num log : List (String × Int)) : Prop :=
  ∀ id n, (id, n) ∈ log → ∃ v, alookup num id = some v ∧ n < v

/-- Per CRL id, the signed numbers are strictly increasing in sign order. -/
def ChainInv (log : List (String × Int)) : Prop :=
  ∀ id, List.Chain' (· < ·) (signedFor log id)

/-- UUIDs not yet drawn are fresh: absent from the number map, absent from
the issuer→CRL-id values, and pairwise distinct. -/
def FreshIds (env : Env) (num : List (String × Int))
    (imap : List (String × String)) (ctr : Nat) : Prop :=
  (∀ k, ctr ≤ k → alookup num (env.genId k) = none) ∧
  (∀ k, ctr ≤ k → ∀ p ∈ imap, p.2 ≠ env.genId k) ∧
  (∀ j k, ctr ≤ j → ctr ≤ k → env.genId j = env.genId k → j = k)

/-- The full CRL-number invariant of a state. -/
def CRLNumOK (env : Env) (st : PkiState) : Prop :=
  NumInv st.storage.localCRL.crlNumberMap st.signed ∧
  FreshIds env st.storage.localCRL.crlNumberMap
    st.storage.localCRL.issuerIDCRLMap st.uuidCtr ∧
  ChainInv st.signed

theorem mem_of_signedFor (log : List (String × Int)) (id : String)
    (n : Int) (h : n ∈ signedFor log id) : (id, n) ∈ log := by
  unfold signedFor at h
  rcases List.mem_map.mp h with ⟨e, he, hsnd⟩
  rcases List.mem_filter.mp he with ⟨hel, hfst⟩
  rw [decide_eq_true_eq] at hfst
  have : e = (id, n) := by
    rw [← hfst, ← hsnd]
  rw [← this]
  exact hel

theorem signedFor_eq_nil (log : List (String × Int)) (id : String)
    (h : ∀ n, (id, n) ∉ log) : signedFor log id = [] :=
  List.eq_nil_iff_forall_not_mem.mpr
    (fun n hn => h n (mem_of_signedFor _ _ _ hn))

theorem signedFor_append_self (log : List (String × Int)) (id : String)
    (n : Int) :
    signedFor (log ++ [(id, n)]) id = signedFor log id ++ [n] := by
  unfold signedFor
  rw [List.filter_append, List.map_append]
  simp

theorem signedFor_append_other (log : List (String × Int)) (id cid : String)
    (n : Int) (h : id ≠ cid) :
    signedFor (log ++ [(cid, n)]) id = signedFor log id := by
  unfold signedFor
  rw [List.filter_append, List.map_append]
  have : List.filter (fun e => decide (e.1 = id)) [(cid, n)] = [] := by
    simp [Ne.symm h]
  rw [this]
  simp

theorem getLast?_mem_list {α : Type} :
    ∀ (l : List α) (x : α), l.getLast? = some x → x ∈ l := by
  intro l
  induction l with
  | nil =>
      intro x h
      simp at h
  | cons a rest ih =>
      intro x h
      cases rest with
      | nil =>
          simp only [List.getLast?_singleton, Option.some.injEq] at h
          rw [← h]
          exact List.mem_singleton_self a
      | cons b t =>
          rw [List.getLast?_cons_cons] at h
          exact List.mem_cons_of_mem _ (ih x h)

theorem chain_append_singleton (l : List Int) (n : Int)
    (hc : List.Chain' (· < ·) l) (hlt : ∀ x ∈ l, x < n) :
    List.Chain' (· < ·) (l ++ [n]) := by
  rw [List.chain'_append]
  refine ⟨hc, List.chain'_singleton n, ?_⟩
  intro x hx y hy
  simp only [List.head?_cons, Option.mem_def, Option.some.injEq] at hy
  rw [← hy]
  exact hlt x (getLast?_mem_list l x hx)

/-- Allocating the next number for one id (post-increment) preserves the
number invariant for the existing log. -/
theorem numInv_alloc (num log : List (String × Int)) (cid : String)
    (hnum : NumInv num log) :
    NumInv (aset num cid (((alookup num cid).getD 0) + 1)) log := by
  intro id n hn
  obtain ⟨v, hv, hlt⟩ := hnum id n hn
  by_cases hid : id = cid
  · subst hid
    refine ⟨((alookup num id).getD 0) + 1, alookup_aset_self _ _ _, ?_⟩
    rw [hv]
    simp only [Option.getD_some]
    omega
  · exact ⟨v, by rw [alookup_aset_ne _ _ _ _ hid]; exact hv, hlt⟩

/-- Allocating and signing the pre-increment number preserves the number
invariant for the extended log. -/
theorem numInv_alloc_sign (num log : List (String × Int)) (cid : String)
    (hnum : NumInv num log) :
    NumInv (aset num cid (((alookup num cid).getD 0) + 1))
      (log ++ [(cid, (alookup num cid).getD 0)]) := by
  intro id n hn
  rcases List.mem_append.mp hn with hn | hn
  · exact numInv_alloc num log cid hnum id n hn
  · rw [List.mem_singleton, Prod.mk.injEq] at hn
    obtain ⟨h1, h2⟩ := hn
    subst h1
    subst h2
    exact ⟨((alookup num id).getD 0) + 1, alookup_aset_self _ _ _,
      by omega⟩

/-- Allocating and signing keeps the per-id signed chains strictly
increasing. -/
theorem chainInv_alloc_sign (num log : List (String × Int)) (cid : String)
    (hnum : NumInv num log) (hch : ChainInv log) :
    ChainInv (log ++ [(cid, (alookup num cid).getD 0)]) := by
  intro id
  by_cases hid : id = cid
  · subst hid
    rw [signedFor_append_self]
    refine chain_append_singleton _ _ (hch id) ?_
    intro x hx
    obtain ⟨v, hv, hlt⟩ := hnum id x (mem_of_signedFor _ _ _ hx)
    rw [hv]
    simpa using hlt
  · rw [signedFor_append_other _ _ _ _ hid]
    exact hch id

/-- Seeding a fresh id at 1 preserves the number invariant. -/
theorem numInv_mint (num log : List (String × Int)) (cid : String)
    (hnone : alookup num cid = none) (hnum : NumInv num log) :
    NumInv (aset num cid 1) log := by
  intro id n hn
  obtain ⟨v, hv, hlt⟩ := hnum id n hn
  by_cases hid : id = cid
  · subst hid
    rw [hv] at hnone
    simp at hnone
  · exact ⟨v, by rw [alookup_aset_ne _ _ _ _ hid]; exact hv, hlt⟩

/-- Freshness is preserved by bumping the counter, writing a non-fresh id
into the number map, and growing the issuer map only with that id. -/
theorem fresh_update (env : Env) (num : List (String × Int))
    (imap : List (String × String)) (ctr ctr' : Nat) (cid : String)
    (v : Int) (imap' : List (String × String))
    (hf : FreshIds env num imap ctr) (hctr : ctr ≤ ctr')
    (hcid : ∀ k, ctr' ≤ k → cid ≠ env.genId k)
    (himap : ∀ p ∈ imap', p ∈ imap ∨ p.2 = cid) :
    FreshIds env (aset num cid v) imap' ctr' := by
  obtain ⟨hf1, hf2, hf3⟩ := hf
  refine ⟨?_, ?_, ?_⟩
  · intro k hk
    rw [alookup_aset_ne _ _ _ _ (fun he => hcid k hk he.symm)]
    exact hf1 k (le_trans hctr hk)
  · intro k hk p hp
    rcases himap p hp with hp | hp
    · exact hf2 k (le_trans hctr hk) p hp
    · rw [hp]
      exact fun he => hcid k hk he
  · intro j k hj hk
    exact hf3 j k (le_trans hctr hj) (le_trans hctr hk)

theorem foldl_aset_mem_val {α β : Type} [DecidableEq α] (v : β) :
    ∀ (S : List α) (m : List (α × β)) (p : α × β),
      p ∈ S.foldl (fun m i => aset m i v) m → p ∈ m ∨ p.2 = v := by
  intro S
  induction S with
  | nil =>
      intro m p hp
      left
      exact hp
  | cons j rest ih =>
      intro m p hp
      rw [List.foldl_cons] at hp
      rcases ih _ _ hp with hp | hp
      · rcases mem_aset _ _ _ _ hp with hp | hp
        · left
          exact hp
        · right
          rw [hp]
      · right
        exact hp

/-- The CRL id resolved by classScan is the accumulator's id or a value of
the issuer→CRL-id map. -/
theorem classScan_id_source (dI : String) (u : List RevokedCertificate)
    (rm : List (String × List RevokedCertificate))
    (imap : List (String × String)) :
    ∀ (S : List String)
      (acc res : List RevokedCertificate × String × String × String),
      classScan dI u rm imap S acc = Except.ok res →
      res.2.2.1 = acc.2.2.1 ∨ ∃ p ∈ imap, p.2 = res.2.2.1 := by
  intro S
  induction S with
  | nil =>
      intro acc res h
      simp only [classScan, Except.ok.injEq] at h
      left
      rw [← h]
  | cons issuerId rest ih =>
      intro acc res h
      obtain ⟨accL, accR, accI, accJ⟩ := acc
      unfold classScan at h
      dsimp only at h
      split at h
      · rename_i thisCRLId halook
        split at h
        · split at h
          · simp at h
          · rcases ih _ _ h with hres | hres
            · right
              exact ⟨(issuerId, thisCRLId), alookup_mem _ _ _ halook,
                hres.symm⟩
            · right
              exact hres
        · rcases ih _ _ h with hres | hres
          · left
            exact hres
          · right
            exact hres
      · rcases ih _ _ h with hres | hres
        · left
          exact hres
        · right
          exact hres

/-- processClass preserves the CRL-number invariants: numbers already
signed stay below the number map, freshness of undrawn UUIDs is kept, the
per-id signed chains stay strictly increasing, and the sign log only
grows. -/
theorem processClass_numOK (env : Env) (b : Backend) (g : crlConfig)
    (forceNew : Bool) (dI : String) (u : List RevokedCertificate)
    (rm : List (String × List RevokedCertificate))
    (cc : localCRLConfigEntry) (st : PkiState) (S : List String)
    (cc' : localCRLConfigEntry) (st' : PkiState)
    (h : processClass env b g forceNew dI u rm cc st S =
      Except.ok (cc', st'))
    (hnum : NumInv cc.crlNumberMap st.signed)
    (hfresh : FreshIds env cc.crlNumberMap cc.issuerIDCRLMap st.uuidCtr)
    (hch : ChainInv st.signed) :
    NumInv cc'.crlNumberMap st'.signed ∧
    FreshIds env cc'.crlNumberMap cc'.issuerIDCRLMap st'.uuidCtr ∧
    ChainInv st'.signed ∧
    (∃ suffix, st'.signed = st.signed ++ suffix) ∧
    st.uuidCtr ≤ st'.uuidCtr := by
  cases S with
  | nil =>
      unfold processClass at h
      rw [if_pos rfl] at h
      simp only [Except.ok.injEq, Prod.mk.injEq] at h
      obtain ⟨h1, h2⟩ := h
      subst h1
      subst h2
      exact ⟨hnum, hfresh, hch, ⟨[], by simp⟩, le_refl _⟩
  | cons first tail =>
      unfold processClass at h
      rw [if_neg (List.cons_ne_nil first tail)] at h
      split at h
      · simp at h
      · rename_i rc rep id0 lastI hscan
        dsimp only at h
        split at h
        · simp at h
        · rename_i nextUpdate st1 hbuild
          simp only [Except.ok.injEq, Prod.mk.injEq] at h
          obtain ⟨hcc', hst'⟩ := h
          subst hcc'
          subst hst'
          obtain ⟨-, huuid, -, -, -, hsig⟩ :=
            buildCRL_frame _ _ _ _ _ _ _ _ _ _ _ hbuild
          by_cases hid0 : id0 = ""
          · -- a fresh CRL id is minted and seeded at 1
            simp only [if_pos hid0] at hbuild huuid hsig ⊢
            have hnone : alookup cc.crlNumberMap
                (env.genId st.uuidCtr) = none :=
              hfresh.1 st.uuidCtr (le_refl _)
            have hmint : NumInv (aset cc.crlNumberMap
                (env.genId st.uuidCtr) 1) st.signed :=
              numInv_mint _ _ _ hnone hnum
            have hcid : ∀ k, st.uuidCtr + 1 ≤ k →
                env.genId st.uuidCtr ≠ env.genId k := by
              intro k hk he
              have := hfresh.2.2 st.uuidCtr k (le_refl _)
                (le_trans (Nat.le_succ _) hk) he
              omega
            have hfr1 : FreshIds env (aset cc.crlNumberMap
                (env.genId st.uuidCtr) 1) cc.issuerIDCRLMap
                (st.uuidCtr + 1) :=
              fresh_update env _ _ _ _ _ _ _ hfresh (Nat.le_succ _)
                hcid (fun p hp => Or.inl hp)
            have hfr2 : FreshIds env
                (aset (aset cc.crlNumberMap (env.genId st.uuidCtr) 1)
                  (env.genId st.uuidCtr)
                  (((alookup (aset cc.crlNumberMap (env.genId st.uuidCtr) 1)
                    (env.genId st.uuidCtr)).getD 0) + 1))
                ((first :: tail).foldl
                  (fun m i => aset m i (env.genId st.uuidCtr))
                  cc.issuerIDCRLMap)
                (st.uuidCtr + 1) :=
              fresh_update env _ _ _ _ _ _ _ hfr1 (le_refl _) hcid
                (fun p hp => foldl_aset_mem_val _ _ _ _ hp)
            rcases hsig with hsig | hsig
            · refine ⟨?_, ?_, ?_, ⟨[], by simp [hsig]⟩, ?_⟩
              · rw [hsig]
                exact numInv_alloc _ _ _ hmint
              · rw [huuid]
                exact hfr2
              · rw [hsig]
                exact hch
              · rw [huuid]
                simp
            · refine ⟨?_, ?_, ?_,
                ⟨[(env.genId st.uuidCtr,
                  (alookup (aset cc.crlNumberMap (env.genId st.uuidCtr) 1)
                    (env.genId st.uuidCtr)).getD 0)],
                  by rw [hsig]⟩, ?_⟩
              · rw [hsig]
                exact numInv_alloc_sign _ _ _ hmint
              · rw [huuid]
                exact hfr2
              · rw [hsig]
                exact chainInv_alloc_sign _ _ _ hmint hch
              · rw [huuid]
                simp
          · -- the class reuses an existing CRL id from the index
            simp only [if_neg hid0] at hbuild huuid hsig ⊢
            have hsrc : ∃ p ∈ cc.issuerIDCRLMap, p.2 = id0 := by
              rcases classScan_id_source dI u rm cc.issuerIDCRLMap
                (first :: tail) _ _ hscan with hres | hres
              · exact absurd hres hid0
              · exact hres
            have hcid : ∀ k, st.uuidCtr ≤ k → id0 ≠ env.genId k := by
              intro k hk
              obtain ⟨p, hp, hpv⟩ := hsrc
              rw [← hpv]
              exact hfresh.2.1 k hk p hp
            have hfr2 : FreshIds env
                (aset cc.crlNumberMap id0
                  (((alookup cc.crlNumberMap id0).getD 0) + 1))
                ((first :: tail).foldl (fun m i => aset m i id0)
                  cc.issuerIDCRLMap)
                st.uuidCtr :=
              fresh_update env _ _ _ _ _ _ _ hfresh (le_refl _) hcid
                (fun p hp => foldl_aset_mem_val _ _ _ _ hp)
            rcases hsig with hsig | hsig
            · refine ⟨?_, ?_, ?_, ⟨[], by simp [hsig]⟩, ?_⟩
              · rw [hsig]
                exact numInv_alloc _ _ _ hnum
              · rw [huuid]
                exact hfr2
              · rw [hsig]
                exact hch
              · rw [huuid]
            · refine ⟨?_, ?_, ?_,
                ⟨[(id0, (alookup cc.crlNumberMap id0).getD 0)],
                  by rw [hsig]⟩, ?_⟩
              · rw [hsig]
                exact numInv_alloc_sign _ _ _ hnum
              · rw [huuid]
                exact hfr2
              · rw [hsig]
                exact chainInv_alloc_sign _ _ _ hnum hch
              · rw [huuid]

/-- processClasses preserves the CRL-number invariants and only appends to
the sign log. -/
theorem processClasses_numOK (env : Env) (b : Backend) (g : crlConfig)
    (forceNew : Bool) (dI : String) (u : List RevokedCertificate)
    (rm : List (String × List RevokedCertificate)) :
    ∀ (cells : List ((String × String) × List String))
      (cc : localCRLConfigEntry) (st : PkiState)
      (cc' : localCRLConfigEntry) (st' : PkiState),
      processClasses env b g forceNew dI u rm cells cc st =
        Except.ok (cc', st') →
      NumInv cc.crlNumberMap st.signed →
      FreshIds env cc.crlNumberMap cc.issuerIDCRLMap st.uuidCtr →
      ChainInv st.signed →
      NumInv cc'.crlNumberMap st'.signed ∧
      FreshIds env cc'.crlNumberMap cc'.issuerIDCRLMap st'.uuidCtr ∧
      ChainInv st'.signed ∧
      (∃ suffix, st'.signed = st.signed ++ suffix) := by
  intro cells
  induction cells with
  | nil =>
      intro cc st cc' st' h hnum hfresh hch
      simp only [processClasses, Except.ok.injEq, Prod.mk.injEq] at h
      obtain ⟨h1, h2⟩ := h
      subst h1
      subst h2
      exact ⟨hnum, hfresh, hch, ⟨[], by simp⟩⟩
  | cons cell rest ih =>
      intro cc st cc' st' h hnum hfresh hch
      unfold processClasses at h
      split at h
      · simp at h
      · rename_i cc1 st1 hp
        obtain ⟨hnum1, hfresh1, hch1, ⟨s1, hs1⟩, -⟩ :=
          processClass_numOK _ _ _ _ _ _ _ _ _ _ _ _ hp hnum hfresh hch
        obtain ⟨hnum2, hfresh2, hch2, ⟨s2, hs2⟩⟩ :=
          ih _ _ _ _ h hnum1 hfresh1 hch1
        exact ⟨hnum2, hfresh2, hch2,
          ⟨s1 ++ s2, by rw [hs2, hs1, List.append_assoc]⟩⟩

/-- One successful buildCRLs run preserves the CRL-number invariants and
only appends to the sign log. -/
theorem buildCRLs_numOK (env : Env) (b : Backend) (forceNew : Bool)
    (st st' : PkiState)
    (hleg : b.legacyBundle = false)
    (hok : buildCRLs env b forceNew st = Except.ok st')
    (hinv : CRLNumOK env st) :
    CRLNumOK env st' ∧ ∃ suffix, st'.signed = st.signed ++ suffix := by
  obtain ⟨hnum, hfresh, hch⟩ := hinv
  have hsto : ((getConfigWithUpdate st).2).storage = st.storage :=
    (getConfigWithUpdate_frame st).1
  have hsgn : ((getConfigWithUpdate st).2).signed = st.signed :=
    (getConfigWithUpdate_frame st).2.2.1
  have hctr : ((getConfigWithUpdate st).2).uuidCtr = st.uuidCtr :=
    (getConfigWithUpdate_frame st).2.1
  unfold buildCRLs at hok
  dsimp only at hok
  rw [hsto, hsgn, hctr] at hok
  split at hok
  · simp only [Except.ok.injEq] at hok
    rw [← hok]
    refine ⟨⟨?_, ?_, ?_⟩, ⟨[], by rw [hsgn]; simp⟩⟩
    · rw [hsto, hsgn]
      exact hnum
    · rw [hsto, hctr]
      exact hfresh
    · rw [hsgn]
      exact hch
  · simp only [hleg, Bool.false_eq_true, not_false_eq_true, if_true]
      at hok
    split at hok
    · simp at hok
    · rename_i issuers hiss
      split at hok
      · simp at hok
      · rename_i em cm ks hcoll
        split at hok
        · simp at hok
        · rename_i u m store' hget
          split at hok
          · simp at hok
          · rename_i ccf st2 hproc
            simp only [Except.ok.injEq] at hok
            obtain ⟨hnum2, hfresh2, hch2, ⟨sfx, hsfx⟩⟩ :=
              processClasses_numOK env b _ forceNew _ _ _ ks
                st.storage.localCRL _ ccf st2 hproc hnum hfresh hch
            rw [← hok]
            refine ⟨⟨hnum2, ?_, hch2⟩, ⟨sfx, hsfx⟩⟩
            refine ⟨hfresh2.1, ?_, hfresh2.2.2⟩
            intro k hk p hp
            exact hfresh2.2.1 k hk p (List.mem_of_mem_filter hp)

/-- Claim C1: across any sequence of successful buildCRLs runs on a
non-legacy backend, for every CRL id the sequence of CRL Number values
signed and written is strictly increasing; each run signs with the
pre-increment CRLNumberMap value and post-increments the map (the number
invariant), provided un-drawn UUIDs are fresh. -/
theorem crl_numbers_strictly_increasing (env : Env) (b : Backend)
    (fs : List Bool) :
    ∀ (st st' : PkiState),
      b.legacyBundle = false →
      CRLNumOK env st →
      runBuilds env b fs st = Except.ok st' →
      CRLNumOK env st' ∧
      (∃ suffix, st'.signed = st.signed ++ suffix) ∧
      (∀ id, List.Chain' (· < ·) (signedFor st'.signed id)) := by
  induction fs with
  | nil =>
      intro st st' hleg hinv hrun
      simp only [runBuilds, Except.ok.injEq] at hrun
      rw [← hrun]
      exact ⟨hinv, ⟨[], by simp⟩, hinv.2.2⟩
  | cons f rest ih =>
      intro st st' hleg hinv hrun
      unfold runBuilds at hrun
      split at hrun
      · simp at hrun
      · rename_i st1 hb
        obtain ⟨hinv1, ⟨s1, hs1⟩⟩ := buildCRLs_numOK env b f st st1 hleg
          hb hinv
        obtain ⟨hinv2, ⟨s2, hs2⟩, hchain⟩ := ih st1 st' hleg hinv1 hrun
        exact ⟨hinv2,
          ⟨s1 ++ s2, by rw [hs2, hs1, List.append_assoc]⟩, hchain⟩

def envC1W : Env :=
  { now := 100
    parseCert := fun _ => none
    checkSig := fun _ _ => false
    parseDuration := fun s => if s = "72h" then some 259200 else none
    genId := fun n => String.mk (List.replicate (n + 1) 'u') }

def stC1W : PkiState :=
  { storage := { revoked := [], certs := [], crls := []
                 localCRL := { issuerIDCRLMap := [], crlNumberMap := []
                               crlExpirationMap := [] }
                 revConfig := none }
    builder := { forceRebuild := 0, dirty := false
                 config := defaultCrlConfig }
    uuidCtr := 0
    signed := [] }

def stC1Out : PkiState :=
  (runBuilds envC1W bIssW [false, false] stC1W).toOption.getD stC1W

theorem crl_numbers_strictly_increasing_witness :
    CRLNumOK envC1W stC1Out ∧
    (∃ suffix, stC1Out.signed = stC1W.signed ++ suffix) ∧
    (∀ id, List.Chain' (· < ·) (signedFor stC1Out.signed id)) :=
  crl_numbers_strictly_increasing envC1W bIssW [false, false] stC1W
    stC1Out (by decide)
    ⟨fun id n hn => absurd hn (List.not_mem_nil _),
      ⟨fun k _ => rfl, fun k _ p hp => absurd hp (List.not_mem_nil p),
        fun j k _ _ he => by
          simp only [envC1W] at he
          have hlen := congrArg (fun s => s.data.length) he
          simp at hlen
          omega⟩,
      fun id => List.chain'_nil⟩
    (by decide)

end Vault
